import Mathlib

/-!
# cni-dra-driver: claim-to-network attachment pipeline

A shallow embedding of the Go sources of `sigs.k8s.io/cni-dra-driver`
(`pkg/store/memory.go`, `pkg/cni/cni.go`, `pkg/dra/driver.go`,
`pkg/discovery/discovery.go`, `pkg/status/cnistatus.go`, `pkg/nri/nri.go`)
and theorems about them.

Conventions of the embedding:

* a Go `map[K]V` is a key-unique association list (`GoMap`); only lookups
  are observable, the list order is the insertion order;
* a `*ResourceClaim` is the record it points to (a value);
* a Go `error` is `Option String`, `none` being `nil`;
* calls that leave the process (the CNI plugin, the status callback) are
  functions of an abstract external state `σ`, and every such call is
  written to an event log.
-/

namespace CniDra

/-! ## Go maps -/

/-- A Go `map[K]V`: an association list with at most one entry per key. -/
structure GoMap (κ ν : Type) where
  entries : List (κ × ν)
deriving DecidableEq, Repr

namespace GoMap

variable {κ ν : Type} [DecidableEq κ]

/-- The Go expression `map[K]V{}`. -/
def empty : GoMap κ ν := ⟨[]⟩

/-- The entries lookup behind `v, ok := m[k]`. -/
def lookupIn : List (κ × ν) → κ → Option ν
  | [], _ => none
  | (k', v) :: rest, k => if k' = k then some v else lookupIn rest k

/-- The Go expression `v, ok := m[k]`; `none` is `ok == false`. -/
def lookup (m : GoMap κ ν) (k : κ) : Option ν := lookupIn m.entries k

/-- The entries update behind `m[k] = v`. -/
def storeIn : List (κ × ν) → κ → ν → List (κ × ν)
  | [], k, v => [(k, v)]
  | (k', v') :: rest, k, v =>
    if k' = k then (k, v) :: rest else (k', v') :: storeIn rest k v

/-- The Go statement `m[k] = v`. -/
def store (m : GoMap κ ν) (k : κ) (v : ν) : GoMap κ ν := ⟨storeIn m.entries k v⟩

/-- The Go statement `delete(m, k)`. -/
def delete (m : GoMap κ ν) (k : κ) : GoMap κ ν :=
  ⟨m.entries.filter (fun e => decide (e.1 ≠ k))⟩

/-- The keys of the map. -/
def keys (m : GoMap κ ν) : List κ := m.entries.map Prod.fst

/-- The values of the map. -/
def values (m : GoMap κ ν) : List ν := m.entries.map Prod.snd

/-- The Go expression `len(m)`. -/
def len (m : GoMap κ ν) : Nat := m.entries.length

end GoMap

/-! ## The Kubernetes API objects the driver reads -/

/-- The Go type `types.UID`, a string. -/
abbrev UID := String

/-- The raw bytes of a `runtime.RawExtension`. -/
abbrev Bytes := List UInt8

/-- One allocated device of a claim (`DeviceRequestAllocationResult`). -/
structure DeviceRequestAllocationResult where
  Request : String
  Driver : String
  Pool : String
  Device : String
  ShareUID : Option String
deriving DecidableEq, Repr

/-- The driver-specific configuration of a claim (`OpaqueDeviceConfiguration`);
`Parameters` is `Parameters.Raw`. -/
structure OpaqueDeviceConfiguration where
  Driver : String
  Parameters : Bytes
deriving DecidableEq, Repr

/-- One configuration entry of an allocation (`DeviceAllocationConfiguration`);
`Opaque` is a pointer in Go, `none` being `nil`. -/
structure DeviceAllocationConfiguration where
  Source : String
  Requests : List String
  Opaque : Option OpaqueDeviceConfiguration
deriving DecidableEq, Repr

/-- The devices part of an allocation (`DeviceAllocationResult`). -/
structure DeviceAllocationResult where
  Results : List DeviceRequestAllocationResult
  Config : List DeviceAllocationConfiguration
deriving DecidableEq, Repr

/-- The allocation state of a claim (`AllocationResult`). -/
structure AllocationResult where
  Devices : DeviceAllocationResult
deriving DecidableEq, Repr

/-- A reservation of a claim (`ResourceClaimConsumerReference`). -/
structure ResourceClaimConsumerReference where
  APIGroup : String
  Resource : String
  Name : String
  UID : UID
deriving DecidableEq, Repr

/-- The normalized network data of a device status (`NetworkDeviceData`). -/
structure NetworkDeviceData where
  InterfaceName : String
  IPs : List String
  HardwareAddress : String
deriving DecidableEq, Repr

/-- One device-status entry of a claim (`AllocatedDeviceStatus`). -/
structure AllocatedDeviceStatus where
  Driver : String
  Pool : String
  Device : String
  Data : Option Bytes
  NetworkData : Option NetworkDeviceData
  ShareUID : Option String
deriving DecidableEq, Repr

/-- The status of a claim (`ResourceClaimStatus`); `Allocation` is a pointer
in Go, `none` being `nil`. -/
structure ResourceClaimStatus where
  Allocation : Option AllocationResult
  ReservedFor : List ResourceClaimConsumerReference
  Devices : List AllocatedDeviceStatus
deriving DecidableEq, Repr

/-- The fields of a `resourcev1beta1.ResourceClaim` the driver reads. -/
structure ResourceClaim where
  Name : String
  Namespace : String
  UID : UID
  Status : ResourceClaimStatus
deriving DecidableEq, Repr

/-! ## `pkg/store/memory.go` -/

/-- The Go type `store.Memory` (its lock left out). -/
structure Memory where
  podResources : GoMap UID (List ResourceClaim)
deriving DecidableEq, Repr

/-- The constructor `NewMemory`. -/
def NewMemory : Memory := ⟨GoMap.empty⟩

/-- The method `Memory.Get`: `m.podResources[podUID]`, the nil slice when the
key is absent. -/
def Memory.Get (m : Memory) (podUID : UID) : List ResourceClaim :=
  (m.podResources.lookup podUID).getD []

/-- The method `Memory.Add`: return early when a stored claim of the pod has
the UID of `claim`, otherwise append to the pod's slice. -/
def Memory.Add (m : Memory) (podUID : UID) (claim : ResourceClaim) : Memory :=
  let stored : Bool :=
    match m.podResources.lookup podUID with
    | some storedClaims =>
      storedClaims.any (fun storedClaim => decide (claim.UID = storedClaim.UID))
    | none => false
  if stored then m
  else ⟨m.podResources.store podUID (m.Get podUID ++ [claim])⟩

/-- The method `Memory.Delete`. -/
def Memory.Delete (m : Memory) (podUID : UID) : Memory :=
  ⟨m.podResources.delete podUID⟩

/-- Some stored claim of the pod has the given UID. -/
def Memory.Stores (m : Memory) (podUID : UID) (uid : UID) : Prop :=
  ∃ c ∈ m.Get podUID, c.UID = uid

/-- One call on the store. -/
inductive StoreOp where
  | add (podUID : UID) (claim : ResourceClaim)
  | delete (podUID : UID)
deriving DecidableEq, Repr

/-- The effect of one call on the store. -/
def Memory.apply (m : Memory) : StoreOp → Memory
  | .add podUID claim => m.Add podUID claim
  | .delete podUID => m.Delete podUID

/-- The store after a sequence of calls, starting from `NewMemory()`. -/
def Memory.run (ops : List StoreOp) : Memory :=
  ops.foldl Memory.apply NewMemory

/-- No two records of the list have the same UID. -/
def DistinctUIDs (claims : List ResourceClaim) : Prop :=
  claims.Pairwise (fun a b => a.UID ≠ b.UID)

instance (claims : List ResourceClaim) : Decidable (DistinctUIDs claims) := by
  unfold DistinctUIDs; infer_instance

/-! ## `pkg/cni/cni.go` -/

/-- Modelled from the spec: the type `v1alpha1.CNIConfig` of `apis/v1alpha1`,
whose declaration is missing from the sources; the decoded configuration blob,
"a JSON object with fields `ifName` (string) and `config` (raw bytes holding a
plugin-list configuration document)". `Config` is `Config.Raw`. -/
structure CNIConfig where
  IfName : String
  Config : Bytes
deriving DecidableEq, Repr

/-- The fields of `libcni.RuntimeConf` that `Runtime.add` sets. -/
structure RuntimeConf where
  ContainerID : String
  NetNS : String
  IfName : String
  Args : List (String × String)
deriving DecidableEq, Repr

/-- The library calls of `cni.go`, as functions. `σ` is the state outside the
process (network namespaces, the plugin cache, the cluster), `C` the type
`*libcni.NetworkConfigList`, `R` the type `cnitypes.Result`; a library error
is its message. -/
structure CNILib (σ C R : Type) where
  jsonUnmarshal : Bytes → Except String CNIConfig
  ConfListFromBytes : Bytes → Except String C
  AddNetworkList : C → RuntimeConf → σ → Except String R × σ

/-- The type `UpdateStatus` of `cni.go`, as a function of the outside state. -/
abbrev UpdateStatus (σ R : Type) := ResourceClaim → R → σ → Option String × σ

/-- What `Runtime.handleClaim` does outside the process: a plugin invocation
(`AddNetworkList`) or a status report (`updateStatusFunc`). -/
inductive Event (C R : Type) where
  | pluginInvoked (confList : C) (rt : RuntimeConf)
  | statusReported (claim : ResourceClaim) (result : R)
deriving DecidableEq, Repr

/-- The outside state and the log of the calls made so far. -/
structure World (σ C R : Type) where
  ext : σ
  log : List (Event C R)
deriving DecidableEq, Repr

/-- The errors `Runtime.handleClaim` returns, one constructor per `return` of
an error in the source; `cause` is the message of the wrapped error. -/
inductive AttachError (R : Type) where
  | unmarshal (cause : String)
  | confList (cause : String)
  | addNetwork (cause : String)
  | updateStatus (result : R) (cause : String)
deriving DecidableEq, Repr

/-- The Go type `cni.Runtime`; `updateStatusFunc` may be `nil`. -/
structure Runtime (σ C R : Type) where
  podResourceStore : Memory
  cniConfig : CNILib σ C R
  driverName : String
  updateStatusFunc : Option (UpdateStatus σ R)

section cni

variable {σ C R : Type}

/-- The `rt := &libcni.RuntimeConf{...}` of `Runtime.add`. -/
def Runtime.runtimeConf
    (podSandBoxID podUID podName podNamespace podNetworkNamespace : String)
    (cniConfig : CNIConfig) : RuntimeConf :=
  { ContainerID := podSandBoxID
    NetNS := podNetworkNamespace
    IfName := cniConfig.IfName
    Args := [("IgnoreUnknown", "true"),
             ("K8S_POD_NAMESPACE", podNamespace),
             ("K8S_POD_NAME", podName),
             ("K8S_POD_INFRA_CONTAINER_ID", podSandBoxID),
             ("K8S_POD_UID", podUID)] }

/-- The method `Runtime.add`: build the runtime configuration, parse the
plugin list, invoke the plugins. -/
def Runtime.add (rntm : Runtime σ C R)
    (podSandBoxID podUID podName podNamespace podNetworkNamespace : String)
    (cniConfig : CNIConfig) (w : World σ C R) :
    Except (AttachError R) R × World σ C R :=
  match rntm.cniConfig.ConfListFromBytes cniConfig.Config with
  | .error err => (.error (.confList err), w)
  | .ok confList =>
    match rntm.cniConfig.AddNetworkList confList
        (Runtime.runtimeConf podSandBoxID podUID podName podNamespace
          podNetworkNamespace cniConfig) w.ext with
    | (.error err, ext₁) =>
      (.error (.addNetwork err),
        ⟨ext₁, w.log ++ [.pluginInvoked confList
          (Runtime.runtimeConf podSandBoxID podUID podName podNamespace
            podNetworkNamespace cniConfig)]⟩)
    | (.ok result, ext₁) =>
      (.ok result,
        ⟨ext₁, w.log ++ [.pluginInvoked confList
          (Runtime.runtimeConf podSandBoxID podUID podName podNamespace
            podNetworkNamespace cniConfig)]⟩)

/-- The method `Runtime.handleClaim`. The guard of the source reads
`Results[0]` and `Config[0]` after checking both lengths to be 1, which is the
match on one-element lists here. -/
def Runtime.handleClaim (rntm : Runtime σ C R)
    (podSandBoxID podUID podName podNamespace podNetworkNamespace : String)
    (claim : ResourceClaim) (w : World σ C R) :
    Option (AttachError R) × World σ C R :=
  match claim.Status.Allocation with
  | none => (none, w)
  | some allocation =>
    match allocation.Devices.Results, allocation.Devices.Config with
    | [result₀], [config₀] =>
      if result₀.Driver ≠ rntm.driverName then (none, w)
      else
        match config₀.Opaque with
        | none => (none, w)
        | some opq =>
          if opq.Driver ≠ rntm.driverName then (none, w)
          else
            match rntm.cniConfig.jsonUnmarshal opq.Parameters with
            | .error err => (some (.unmarshal err), w)
            | .ok cniConfig =>
              match rntm.add podSandBoxID podUID podName podNamespace
                  podNetworkNamespace cniConfig w with
              | (.error err, w₁) => (some err, w₁)
              | (.ok result, w₁) =>
                match rntm.updateStatusFunc with
                | none => (none, w₁)
                | some updateStatus =>
                  match updateStatus claim result w₁.ext with
                  | (some err, ext₂) =>
                    (some (.updateStatus result err),
                      ⟨ext₂, w₁.log ++ [.statusReported claim result]⟩)
                  | (none, ext₂) =>
                    (none, ⟨ext₂, w₁.log ++ [.statusReported claim result]⟩)
    | _, _ => (none, w)

/-- The loop of `Runtime.AttachNetworks` over the claims of the pod: return
the first error. -/
def Runtime.attachLoop (rntm : Runtime σ C R)
    (podSandBoxID podUID podName podNamespace podNetworkNamespace : String) :
    List ResourceClaim → World σ C R → Option (AttachError R) × World σ C R
  | [], w => (none, w)
  | claim :: rest, w =>
    match rntm.handleClaim podSandBoxID podUID podName podNamespace
        podNetworkNamespace claim w with
    | (some err, w₁) => (some err, w₁)
    | (none, w₁) =>
      attachLoop rntm podSandBoxID podUID podName podNamespace
        podNetworkNamespace rest w₁

/-- The method `Runtime.AttachNetworks`. -/
def Runtime.AttachNetworks (rntm : Runtime σ C R)
    (podSandBoxID podUID podName podNamespace podNetworkNamespace : String)
    (w : World σ C R) : Option (AttachError R) × World σ C R :=
  let claims := rntm.podResourceStore.Get podUID
  rntm.attachLoop podSandBoxID podUID podName podNamespace podNetworkNamespace
    claims w

/-- The record is network-actionable for the driver: it has allocation state
with exactly one device result and exactly one configuration entry, the entry
carries a driver-specific configuration, and the result and that configuration
both name the driver. -/
def Actionable (driverName : String) (claim : ResourceClaim) : Prop :=
  ∃ allocation, claim.Status.Allocation = some allocation ∧
    allocation.Devices.Results.length = 1 ∧
    allocation.Devices.Config.length = 1 ∧
    (∀ result ∈ allocation.Devices.Results, result.Driver = driverName) ∧
    (∀ config ∈ allocation.Devices.Config,
      ∃ opq, config.Opaque = some opq ∧ opq.Driver = driverName)

/-- The records of the list are handled one after the other from the world
`w`, each handling returns no error, and the world after the last is `w'`. -/
inductive HandledOk (rntm : Runtime σ C R)
    (podSandBoxID podUID podName podNamespace podNetworkNamespace : String) :
    List ResourceClaim → World σ C R → World σ C R → Prop where
  | nil (w : World σ C R) :
    HandledOk rntm podSandBoxID podUID podName podNamespace podNetworkNamespace [] w w
  | cons (claim : ResourceClaim) (rest : List ResourceClaim) (w w₁ w₂ : World σ C R)
    (hclaim : rntm.handleClaim podSandBoxID podUID podName podNamespace
        podNetworkNamespace claim w = (none, w₁))
    (hrest : HandledOk rntm podSandBoxID podUID podName podNamespace
        podNetworkNamespace rest w₁ w₂) :
    HandledOk rntm podSandBoxID podUID podName podNamespace podNetworkNamespace
      (claim :: rest) w w₂

end cni

/-! ## `pkg/dra/driver.go` -/

/-- The fields of `kubeletplugin.Device` that `nodePrepareResource` sets. -/
structure Device where
  PoolName : String
  DeviceName : String
deriving DecidableEq, Repr

/-- The errors of `nodePrepareResource`, one constructor per `return` of an
error in the source. -/
inductive PrepareError where
  | nilClaim
  | notAllocated (ns name : String)
  | replaced (ns name : String)
deriving DecidableEq, Repr

/-- The Go type `kubeletplugin.PrepareResult`. -/
structure PrepareResult where
  Devices : List Device
  Err : Option PrepareError
deriving DecidableEq, Repr

/-- The interface `PodResourceStore` of `driver.go`, over a store state `S`. -/
structure PodResourceStore (S : Type) where
  Add : UID → ResourceClaim → S → S

/-- The store `run.go` passes to the driver: `store.Memory`. -/
def memoryStore : PodResourceStore Memory := ⟨fun podUID claim m => m.Add podUID claim⟩

/-- A store that records the `Add` calls it receives, in call order. -/
def recordingStore : PodResourceStore (List (UID × ResourceClaim)) :=
  ⟨fun podUID claim calls => calls ++ [(podUID, claim)]⟩

/-- The Go type `dra.Driver`: its store and the injectable failure of
`PrepareResourceClaims` (`nil` being `none`). -/
structure Driver (S : Type) where
  driverName : String
  podResourceStore : PodResourceStore S
  prepareResourcesFailure : Option String

section dra

variable {S : Type}

/-- The loop of `nodePrepareResource` over `claim.Status.ReservedFor`. -/
def Driver.reserveLoop (d : Driver S) (claim : ResourceClaim) :
    List ResourceClaimConsumerReference → S → S
  | [], s => s
  | reserved :: rest, s =>
    if reserved.Resource ≠ "pods" ∨ reserved.APIGroup ≠ "" then
      reserveLoop d claim rest s
    else
      reserveLoop d claim rest (d.podResourceStore.Add reserved.UID claim s)

/-- The loop of `nodePrepareResource` over the allocated device results,
appending to `devices`. -/
def Driver.devicesLoop :
    List DeviceRequestAllocationResult → List Device → List Device
  | [], devices => devices
  | result :: rest, devices =>
    devicesLoop rest (devices ++ [{ PoolName := result.Pool, DeviceName := result.Device }])

/-- The method `Driver.nodePrepareResource`; `claim` is a pointer in Go, `none`
being `nil`. -/
def Driver.nodePrepareResource (d : Driver S) (claim : Option ResourceClaim) (s : S) :
    Except PrepareError (List Device) × S :=
  match claim with
  | none => (.error .nilClaim, s)
  | some claim =>
    match claim.Status.Allocation with
    | none => (.error (.notAllocated claim.Namespace claim.Name), s)
    | some allocation =>
      if claim.UID ≠ claim.UID then
        (.error (.replaced claim.Namespace claim.Name), s)
      else
        (.ok (Driver.devicesLoop allocation.Devices.Results []),
          d.reserveLoop claim claim.Status.ReservedFor s)

/-- What `PrepareResourceClaims` returns: the result map (`nil` being `none`)
and the batch error. -/
structure PrepareReturn where
  result : Option (GoMap UID PrepareResult)
  err : Option String
deriving DecidableEq, Repr

/-- The loop of `PrepareResourceClaims`. A `nil` claim makes the body read
`claim.Namespace` and `claim.UID` through a nil pointer: the run-time panic is
`none`. -/
def Driver.prepareLoop (d : Driver S) :
    List (Option ResourceClaim) → GoMap UID PrepareResult → S →
      Option (GoMap UID PrepareResult × S)
  | [], result, s => some (result, s)
  | claim :: rest, result, s =>
    match d.nodePrepareResource claim s with
    | (.error err, s₁) =>
      match claim with
      | none => none
      | some c => prepareLoop d rest (result.store c.UID { Devices := [], Err := some err }) s₁
    | (.ok devices, s₁) =>
      match claim with
      | none => none
      | some c => prepareLoop d rest (result.store c.UID { Devices := devices, Err := none }) s₁

/-- The method `Driver.PrepareResourceClaims`; `none` is a run-time panic. -/
def Driver.PrepareResourceClaims (d : Driver S) (claims : List (Option ResourceClaim))
    (s : S) : Option (PrepareReturn × S) :=
  match d.prepareResourcesFailure with
  | some failure => some ({ result := none, err := some failure }, s)
  | none =>
    match d.prepareLoop claims GoMap.empty s with
    | none => none
    | some (result, s₁) => some ({ result := some result, err := none }, s₁)

/-- The reservation is for a pod: resource `pods` of the core API group. -/
def IsPodReservation (reserved : ResourceClaimConsumerReference) : Prop :=
  reserved.Resource = "pods" ∧ reserved.APIGroup = ""

instance (reserved : ResourceClaimConsumerReference) : Decidable (IsPodReservation reserved) := by
  unfold IsPodReservation; infer_instance

/-- The (pool, device name) pairs of the allocated device results. -/
def allocatedDevices (allocation : AllocationResult) : List Device :=
  allocation.Devices.Results.map (fun result => ⟨result.Pool, result.Device⟩)

/-- The entry of the result map for a non-nil record: the allocated devices
when the record has allocation state, the "not allocated" error otherwise. -/
def prepareEntry (claim : ResourceClaim) : PrepareResult :=
  match claim.Status.Allocation with
  | none => { Devices := [], Err := some (.notAllocated claim.Namespace claim.Name) }
  | some allocation => { Devices := allocatedDevices allocation, Err := none }

end dra

/-- A driver over `store.Memory` with no injected failure. -/
def memoryDriver : Driver Memory := ⟨"cni.dra.networking.x-k8s.io", memoryStore, none⟩

/-- A driver over the recording store with no injected failure. -/
def recordingDriver : Driver (List (UID × ResourceClaim)) :=
  ⟨"cni.dra.networking.x-k8s.io", recordingStore, none⟩

/-! ## `pkg/discovery/discovery.go` -/

/-- The Go type `resourceapi.DeviceAttribute`: one of its value fields set. -/
inductive DeviceAttribute where
  | IntValue (v : Int)
  | StringValue (v : String)
  | VersionValue (v : String)
deriving DecidableEq, Repr

/-- The Go type `resourceapi.CapacityClaimPolicyRange`; a quantity is its
text. -/
structure CapacityClaimPolicyRange where
  Minimum : String
deriving DecidableEq, Repr

/-- The Go type `resourceapi.CapacityClaimPolicy`; `Range` is a pointer. -/
structure CapacityClaimPolicy where
  Range : Option CapacityClaimPolicyRange
deriving DecidableEq, Repr

/-- The Go type `resourceapi.DeviceCapacity`; `ClaimPolicy` is a pointer. -/
structure DeviceCapacity where
  Value : String
  ClaimPolicy : Option CapacityClaimPolicy
deriving DecidableEq, Repr

/-- The Go type `resourceapi.BasicDevice`; `Shared` is a pointer. -/
structure BasicDevice where
  Attributes : GoMap String DeviceAttribute
  Capacity : GoMap String DeviceCapacity
  Shared : Option Bool
deriving DecidableEq, Repr

/-- The Go type `resourceapi.Device`; `Basic` is a pointer. -/
structure resourceapi.Device where
  Name : String
  Basic : Option BasicDevice
deriving DecidableEq, Repr

/-- The Go type `discovery.CapacityValue`. -/
structure CapacityValue where
  capacity : String
  value : String
deriving DecidableEq, Repr

/-- The package variable `gpuPrefix`. -/
def gpuPrefix : String := "gpu-"

/-- The package variable `nicPrefix`. -/
def nicPrefix : String := "nic-"

/-- The package variable `qosNicPrefix`. -/
def qosNicPrefix : String := "qos-nic-"

/-- The package variable `capacityMap`. -/
def capacityMap : GoMap String CapacityValue :=
  ⟨[(gpuPrefix, ⟨"memory", "80Gi"⟩),
    (nicPrefix, ⟨"bandwidth", "10Gi"⟩),
    (qosNicPrefix, ⟨"bandwidth", "10Gi"⟩)]⟩

/-- The package variable `modelMap`. -/
def modelMap : GoMap String String :=
  ⟨[(gpuPrefix, "LATEST-GPU-MODEL"),
    (nicPrefix, "LATEST-NIC-MODEL"),
    (qosNicPrefix, "LATEST-QOS-NIC-MODEL")]⟩

/-- The package variable `one`. -/
def one : String := "1"

/-- The Go type `discovery.AllocatableDevices`. -/
abbrev AllocatableDevices := GoMap String resourceapi.Device

/-- The Go type `discovery.Config`; the counts are `int` in Go and a negative
count makes `make([]string, count)` panic, so they are naturals here. -/
structure Config where
  NumDevices : Nat
  NumSharedDevices : Nat
  NumSharedDevicesWithConsumable : Nat
deriving DecidableEq, Repr

/-- The Go type `discovery.DeviceDiscovery`. -/
structure DeviceDiscovery where
  allocatable : AllocatableDevices
deriving DecidableEq, Repr

/-- The library calls of `generateUUIDs`, as functions: `NewSource seed` is
`rand.New(rand.NewSource(seed))`, `Read r n` fills a buffer of `n` bytes and
gives the generator after the draw, `uuidString b` is `uuid.FromBytes(b)`
followed by `String()`. -/
structure RandLib (ρ : Type) where
  NewSource : Int → ρ
  Read : ρ → Nat → Bytes × ρ
  uuidString : Bytes → String

/-- The wrap-around of `int64` arithmetic. -/
def wrapInt64 (x : Int) : Int := (x + 2 ^ 63) % 2 ^ 64 - 2 ^ 63

/-- The function `hash`: `h = 31*h + int64(c)` over the runes of the string,
in `int64`. -/
def hash (s : String) : Int :=
  s.toList.foldl (fun h c => wrapInt64 (31 * h + (c.toNat : Int))) 0

section discovery

variable {ρ : Type}

/-- The loop of `generateUUIDs`: `remaining` more draws from the generator,
each appended to `uuids`. -/
def generateUUIDsLoop (lib : RandLib ρ) (pfx : String) :
    Nat → ρ → List String → List String
  | 0, _, uuids => uuids
  | remaining + 1, rand, uuids =>
    let charset := lib.Read rand 16
    generateUUIDsLoop lib pfx remaining charset.2 (uuids ++ [pfx ++ lib.uuidString charset.1])

/-- The function `generateUUIDs`. -/
def generateUUIDs (lib : RandLib ρ) (pfx seed : String) (count : Nat) : List String :=
  generateUUIDsLoop lib pfx count (lib.NewSource (hash seed)) []

end discovery

/-- The Go map read `m[k]` with the zero value for an absent key. -/
def GoMap.index {κ ν : Type} [DecidableEq κ] (m : GoMap κ ν) (k : κ) (zero : ν) : ν :=
  (m.lookup k).getD zero

/-- The function `generateDevice`. -/
def generateDevice (pfx : String) (i : Nat) (uuid : String) (shared consumable : Bool) :
    resourceapi.Device :=
  let capacityValue := capacityMap.index pfx ⟨"", "0"⟩
  let deviceCapacity : DeviceCapacity :=
    if consumable then
      { Value := capacityValue.value, ClaimPolicy := some ⟨some ⟨one⟩⟩ }
    else
      { Value := capacityValue.value, ClaimPolicy := none }
  let model := modelMap.index pfx ""
  let basic : BasicDevice :=
    { Attributes :=
        ⟨[("index", .IntValue (i : Int)),
          ("uuid", .StringValue uuid),
          ("model", .StringValue model),
          ("driverVersion", .VersionValue "1.0.0")]⟩
      Capacity := ⟨[(capacityValue.capacity, deviceCapacity)]⟩
      Shared := if shared then some true else none }
  { Name := pfx ++ toString i, Basic := some basic }

/-- One `for i, uuid := range uuids` loop of `enumerateAllPossibleDevices`,
from the index `i` on. -/
def enumerateLoop (pfx : String) (shared consumable : Bool) :
    List String → Nat → AllocatableDevices → AllocatableDevices
  | [], _, alldevices => alldevices
  | uuid :: rest, i, alldevices =>
    let device := generateDevice pfx i uuid shared consumable
    enumerateLoop pfx shared consumable rest (i + 1) (alldevices.store device.Name device)

/-- The function `enumerateAllPossibleDevices`; `seed` is
`os.Getenv("NODE_NAME")`. As in the source, the identifiers of the `qos-nic-`
devices are generated with the count `numShared`. -/
def enumerateAllPossibleDevices {ρ : Type} (lib : RandLib ρ) (seed : String)
    (numGPUs numShared _numSharedWithConsumable : Nat) : AllocatableDevices :=
  let gpuUuids := generateUUIDs lib gpuPrefix seed numGPUs
  let nicUuid := generateUUIDs lib nicPrefix seed numShared
  let qosNicUuid := generateUUIDs lib qosNicPrefix seed numShared
  let alldevices : AllocatableDevices := GoMap.empty
  let alldevices := enumerateLoop gpuPrefix false false gpuUuids 0 alldevices
  let alldevices := enumerateLoop nicPrefix true false nicUuid 0 alldevices
  enumerateLoop qosNicPrefix true true qosNicUuid 0 alldevices

/-- The function `NewDeviceDiscovery`; the error of the source is always
`nil`. -/
def NewDeviceDiscovery {ρ : Type} (lib : RandLib ρ) (seed : String) (config : Config) :
    DeviceDiscovery :=
  ⟨enumerateAllPossibleDevices lib seed config.NumDevices config.NumSharedDevices
    config.NumSharedDevicesWithConsumable⟩

/-- The method `DeviceDiscovery.IsAllocatable`. -/
def DeviceDiscovery.IsAllocatable (m : DeviceDiscovery) (deviceName : String) : Bool :=
  (m.allocatable.lookup deviceName).isSome

/-- The Go type `resourceslice.Slice`. -/
structure Slice where
  Devices : List resourceapi.Device
deriving DecidableEq, Repr

/-- The Go type `resourceslice.Pool`. -/
structure Pool where
  Slices : List Slice
deriving DecidableEq, Repr

/-- The Go type `resourceslice.DriverResources`. -/
structure DriverResources where
  Pools : GoMap String Pool
deriving DecidableEq, Repr

/-- Go visits the entries of a map in `for ... range` in an order it does not
specify and that may differ from one loop to the next; `order` is such a visit
order when it lists every key of the map once. -/
def IsRangeOrder {κ ν : Type} (m : GoMap κ ν) (order : List κ) : Prop :=
  order.Perm (m.entries.map Prod.fst)

instance {κ ν : Type} [DecidableEq κ] (m : GoMap κ ν) (order : List κ) :
    Decidable (IsRangeOrder m order) := by
  unfold IsRangeOrder; infer_instance

/-- The loop `for _, device := range m.allocatable` of `GetResources`, the
keys being visited in the order `order`. -/
def rangeDevices (allocatable : AllocatableDevices) :
    List String → List resourceapi.Device → List resourceapi.Device
  | [], devices => devices
  | name :: rest, devices =>
    match allocatable.lookup name with
    | some device => rangeDevices allocatable rest (devices ++ [device])
    | none => rangeDevices allocatable rest devices

/-- The method `DeviceDiscovery.GetResources`, the map being visited in the
order `order`. -/
def DeviceDiscovery.GetResources (m : DeviceDiscovery) (poolName : String)
    (order : List String) : DriverResources :=
  let devices := rangeDevices m.allocatable order []
  { Pools := (GoMap.empty : GoMap String Pool).store poolName { Slices := [{ Devices := devices }] } }

/-- The devices `GetResources` published for the pool. -/
def DriverResources.devicesOf (resources : DriverResources) (poolName : String) :
    List resourceapi.Device :=
  match resources.Pools.lookup poolName with
  | some pool => pool.Slices.flatMap (fun slice => slice.Devices)
  | none => []

/-- A generator double: the state is a counter started at the seed, a draw of
`n` bytes gives `n` times the low byte of the counter and advances it. -/
def spyRand : RandLib Int where
  NewSource seed := seed
  Read r n := (List.replicate n (UInt8.ofNat (r % 256).toNat), r + 1)
  uuidString b := String.join (b.map (fun x => toString x.toNat))

/-! ### A test double for the runtime -/

/-- The driver name the test double is configured with (the default of the
`dra-driver-name` flag in `run.go`). -/
def spyDriverName : String := "cni.dra.networking.x-k8s.io"

/-- A library double: decoding and parsing succeed, the plugin fails on the
configuration bytes `[0]` and otherwise returns the interface name; the
outside state counts the plugin invocations. -/
def spyLib : CNILib Nat Bytes String where
  jsonUnmarshal raw := .ok ⟨"net1", raw⟩
  ConfListFromBytes raw := .ok raw
  AddNetworkList confList rt n :=
    if confList = [0] then (.error "plugin failed", n + 1) else (.ok rt.IfName, n + 1)

/-- A runtime over the library double whose status callback succeeds. -/
def spyRuntime (store : Memory) : Runtime Nat Bytes String :=
  ⟨store, spyLib, spyDriverName, some (fun _ _ n => (none, n))⟩

/-- A record with one device result of the given driver and one configuration
entry, for the driver of the test double, with the given parameter bytes. -/
def spyClaim (uid driver : String) (raw : Bytes) : ResourceClaim :=
  { Name := uid, Namespace := "default", UID := uid
    Status :=
      { Allocation := some ⟨⟨[⟨"req", driver, "pool", "dev", none⟩],
          [⟨"FromClaim", ["req"], some ⟨spyDriverName, raw⟩⟩]⟩⟩
        ReservedFor := [⟨"", "pods", "pod-a", "pod-a"⟩]
        Devices := [] } }

/-- The world before any call. -/
def spyWorld : World Nat Bytes String := ⟨0, []⟩

/-! ### Test records for the driver -/

/-- A record without allocation state, reserved for the pod `pod-a`. -/
def unallocatedClaim (uid : String) : ResourceClaim :=
  { Name := uid, Namespace := "default", UID := uid
    Status := { Allocation := none, ReservedFor := [⟨"", "pods", "pod-a", "pod-a"⟩], Devices := [] } }

/-- A record with two allocated devices, reserved for the pod `pod-a`, for a
deployment and for the pod `pod-b`, in this order. -/
def reservedClaim (uid : String) : ResourceClaim :=
  { Name := uid, Namespace := "default", UID := uid
    Status :=
      { Allocation := some ⟨⟨[⟨"req-0", "gpu.example.com", "pool-a", "gpu-0", none⟩,
                               ⟨"req-1", spyDriverName, "pool-b", "nic-0", none⟩], []⟩⟩
        ReservedFor := [⟨"", "pods", "pod-a", "pod-a"⟩,
                        ⟨"apps", "deployments", "web", "dep-1"⟩,
                        ⟨"", "pods", "pod-b", "pod-b"⟩]
        Devices := [] } }

/-! ## `pkg/status/cnistatus.go` -/

/-- The Go type `net.IPNet`. -/
structure IPNet where
  IP : Bytes
  Mask : Bytes
deriving DecidableEq, Repr

/-- The Go type `cni100.IPConfig` (an element of `Result.IPs`, non-nil). -/
structure cni100.IPConfig where
  Interface : Option Int
  Address : IPNet
  Gateway : Bytes
deriving DecidableEq, Repr

/-- The Go type `cni100.Interface` (an element of `Result.Interfaces`,
non-nil). -/
structure cni100.Interface where
  Name : String
  Mac : String
  Mtu : Int
  Sandbox : String
deriving DecidableEq, Repr

/-- The fields of `cni100.Result` that `cniResultToNetworkData` reads. -/
structure cni100.Result where
  CNIVersion : String
  Interfaces : List cni100.Interface
  IPs : List cni100.IPConfig
deriving DecidableEq, Repr

/-- The first loop of `cniResultToNetworkData`, over `cniResult.IPs`;
`ipNetString` is the method `net.IPNet.String`. -/
def ipsLoop (ipNetString : IPNet → String) :
    List cni100.IPConfig → NetworkDeviceData → NetworkDeviceData
  | [], networkData => networkData
  | ip :: rest, networkData =>
    ipsLoop ipNetString rest
      { networkData with IPs := networkData.IPs ++ [ipNetString ip.Address] }

/-- The second loop of `cniResultToNetworkData`, over
`cniResult.Interfaces`. -/
def interfacesLoop : List cni100.Interface → NetworkDeviceData → NetworkDeviceData
  | [], networkData => networkData
  | ifs :: rest, networkData =>
    if ifs.Sandbox ≠ "" then
      interfacesLoop rest
        { networkData with InterfaceName := ifs.Name, HardwareAddress := ifs.Mac }
    else
      interfacesLoop rest networkData

/-- The function `cniResultToNetworkData`, starting from
`&resourcev1beta1.NetworkDeviceData{}`. -/
def cniResultToNetworkData (ipNetString : IPNet → String) (cniResult : cni100.Result) :
    NetworkDeviceData :=
  interfacesLoop cniResult.Interfaces
    (ipsLoop ipNetString cniResult.IPs { InterfaceName := "", IPs := [], HardwareAddress := "" })

/-- The interfaces of the result that are sandbox-scoped: those with a
non-empty sandbox field. -/
def sandboxInterfaces (cniResult : cni100.Result) : List cni100.Interface :=
  cniResult.Interfaces.filter (fun ifs => decide (ifs.Sandbox ≠ ""))

/-- The library calls of `UpdateStatus`, as functions: `json.Marshal`,
`cni100.NewResultFromResult` and `net.IPNet.String`; `R` is the type
`cnitypes.Result`, a library error is its message. -/
structure StatusLib (R : Type) where
  jsonMarshal : R → Except String Bytes
  NewResultFromResult : R → Except String cni100.Result
  ipNetString : IPNet → String

/-- The call `ClientSet.ResourceV1beta1().ResourceClaims(ns).UpdateStatus` as
a function of the cluster state `σ`: the error (`nil` being `none`) and the
cluster state after the call. -/
structure ClientSet (σ : Type) where
  UpdateStatus : String → ResourceClaim → σ → Option String × σ

/-- The Go type `status.CNIStatusHandler`. -/
structure CNIStatusHandler (σ : Type) where
  ClientSet : ClientSet σ

/-- The errors of `CNIStatusHandler.UpdateStatus`, one constructor per `return`
of an error in the source. -/
inductive StatusError (R : Type) where
  | marshal (result : R) (cause : String)
  | newResult (result : R) (cause : String)
  | updateStatus (result : R) (cause : String)
deriving DecidableEq, Repr

/-- The device-status entry `UpdateStatus` builds from the first device result
of the record. -/
def deviceStatusEntry (result₀ : DeviceRequestAllocationResult) (resultBytes : Bytes)
    (networkData : NetworkDeviceData) : AllocatedDeviceStatus :=
  { Driver := result₀.Driver
    Pool := result₀.Pool
    Device := result₀.Device
    Data := some resultBytes
    NetworkData := some networkData
    ShareUID := result₀.ShareUID }

/-- The statement `claim.Status.Devices = append(claim.Status.Devices, entry)`:
the record after it. -/
def appendDeviceStatus (claim : ResourceClaim) (entry : AllocatedDeviceStatus) :
    ResourceClaim :=
  { claim with Status := { claim.Status with Devices := claim.Status.Devices ++ [entry] } }

/-- The method `CNIStatusHandler.UpdateStatus`. The record is passed by
pointer in Go and changed in place: the result holds the error, the record
after the call and the cluster state after the call. Reading `Results[0]` of a
record without allocation state or without a device result is a run-time
panic, which is `none`. -/
def CNIStatusHandler.UpdateStatus {σ R : Type} (cnish : CNIStatusHandler σ)
    (lib : StatusLib R) (claim : ResourceClaim) (result : R) (ext : σ) :
    Option (Option (StatusError R) × ResourceClaim × σ) :=
  match lib.jsonMarshal result with
  | .error err => some (some (.marshal result err), claim, ext)
  | .ok resultBytes =>
    match lib.NewResultFromResult result with
    | .error err => some (some (.newResult result err), claim, ext)
    | .ok cniResult =>
      match claim.Status.Allocation with
      | none => none
      | some allocation =>
        match allocation.Devices.Results with
        | [] => none
        | result₀ :: _ =>
          match cnish.ClientSet.UpdateStatus claim.Namespace
              (appendDeviceStatus claim (deviceStatusEntry result₀ resultBytes
                (cniResultToNetworkData lib.ipNetString cniResult))) ext with
          | (some err, ext₁) =>
            some (some (.updateStatus result err),
              appendDeviceStatus claim (deviceStatusEntry result₀ resultBytes
                (cniResultToNetworkData lib.ipNetString cniResult)), ext₁)
          | (none, ext₁) =>
            some (none,
              appendDeviceStatus claim (deviceStatusEntry result₀ resultBytes
                (cniResultToNetworkData lib.ipNetString cniResult)), ext₁)

/-! ## `pkg/nri/nri.go` -/

/-- The Go type `api.LinuxNamespace` (an element of the namespace list,
non-nil); `Type_` is its field `Type`. -/
structure LinuxNamespace where
  Type_ : String
  Path : String
deriving DecidableEq, Repr

/-- The Go type `api.LinuxPodSandbox`. -/
structure LinuxPodSandbox where
  Namespaces : List LinuxNamespace
deriving DecidableEq, Repr

/-- The fields of `api.PodSandbox` that `RunPodSandbox` reads; `Linux` is a
pointer, `none` being `nil`. -/
structure PodSandbox where
  Id : String
  Name : String
  Uid : String
  Namespace : String
  Linux : Option LinuxPodSandbox
deriving DecidableEq, Repr

/-- The getter `GetNamespaces`, which gives `nil` on a nil receiver. -/
def LinuxPodSandbox.GetNamespaces : Option LinuxPodSandbox → List LinuxNamespace
  | none => []
  | some linux => linux.Namespaces

/-- The loop of `getNetworkNamespace`, with the `return ""` after it. -/
def getNetworkNamespaceLoop : List LinuxNamespace → String
  | [] => ""
  | ns :: rest => if ns.Type_ = "network" then ns.Path else getNetworkNamespaceLoop rest

/-- The function `getNetworkNamespace`. -/
def getNetworkNamespace (pod : PodSandbox) : String :=
  getNetworkNamespaceLoop (LinuxPodSandbox.GetNamespaces pod.Linux)

/-- The errors of `Plugin.RunPodSandbox`: the message of the first, the
arguments of the format string and the wrapped error of the second. -/
inductive RunPodSandboxError (R : Type) where
  | networkNamespace (message : String)
  | attachNetworks (podName podUid podNamespace : String) (cause : AttachError R)
deriving DecidableEq, Repr

/-- The Go type `nri.Plugin`: its runtime. -/
structure Plugin (σ C R : Type) where
  CNI : Runtime σ C R

/-- The method `Plugin.RunPodSandbox`. -/
def Plugin.RunPodSandbox {σ C R : Type} (p : Plugin σ C R) (pod : PodSandbox)
    (w : World σ C R) : Option (RunPodSandboxError R) × World σ C R :=
  if getNetworkNamespace pod = "" then
    (some (.networkNamespace
      ("error getting network namespace for pod '" ++ pod.Name ++ "' in namespace '"
        ++ pod.Namespace ++ "'")), w)
  else
    match p.CNI.AttachNetworks pod.Id pod.Uid pod.Name pod.Namespace
        (getNetworkNamespace pod) w with
    | (some err, w₁) => (some (.attachNetworks pod.Name pod.Uid pod.Namespace err), w₁)
    | (none, w₁) => (none, w₁)

/-- The sandbox declares no namespace of type `network`. -/
def NoNetworkNamespace (pod : PodSandbox) : Prop :=
  ∀ ns ∈ LinuxPodSandbox.GetNamespaces pod.Linux, ns.Type_ ≠ "network"

instance (pod : PodSandbox) : Decidable (NoNetworkNamespace pod) := by
  unfold NoNetworkNamespace; infer_instance

/-! ### Test doubles for the status reporter and the sandbox hook -/

/-- A status library double: a result is its list of IP addresses, the
serialization fails on the empty result, the normalization fails on a result
of more than two addresses and otherwise gives one host-side interface, the
sandbox-scoped interface `eth0` and a second host-side interface. -/
def spyStatusLib : StatusLib (List IPNet) where
  jsonMarshal result :=
    if result = [] then .error "unsupported value" else .ok (result.map (fun _ => 1))
  NewResultFromResult result :=
    if 2 < result.length then .error "unsupported version"
    else .ok
      { CNIVersion := "1.0.0"
        Interfaces := [⟨"veth0", "aa:aa", 1500, ""⟩, ⟨"eth0", "bb:bb", 1500, "/netns"⟩,
          ⟨"br0", "cc:cc", 1500, ""⟩]
        IPs := result.map (fun a => ⟨some 1, a, []⟩) }
  ipNetString a := String.intercalate "." (a.IP.map (fun b => toString b.toNat))

/-- A status handler double: the cluster state is the list of written
records, a write of a record in the namespace `broken` fails. -/
def spyStatusHandler : CNIStatusHandler (List ResourceClaim) where
  ClientSet :=
    ⟨fun ns claim written =>
      if ns = "broken" then (some "conflict", written) else (none, written ++ [claim])⟩

/-- A record with one device result in the namespace `broken`, for which the
write of the status handler double fails. -/
def brokenClaim : ResourceClaim :=
  { spyClaim "u-9" spyDriverName [1] with Namespace := "broken" }

/-- A sandbox that declares an IPC and a PID namespace only. -/
def sandboxWithoutNetwork : PodSandbox :=
  { Id := "sb", Name := "web-0", Uid := "pod-a", Namespace := "default"
    Linux := some ⟨[⟨"ipc", "/proc/1/ns/ipc"⟩, ⟨"pid", "/proc/1/ns/pid"⟩]⟩ }

/-! ## Theorems -/

/-! ### Go maps -/

namespace GoMap

variable {κ ν : Type} [DecidableEq κ]

theorem lookupIn_storeIn_self (l : List (κ × ν)) (k : κ) (v : ν) :
    lookupIn (storeIn l k v) k = some v := by
  induction l with
  | nil => simp [storeIn, lookupIn]
  | cons e rest ih =>
    obtain ⟨k', v'⟩ := e
    by_cases h : k' = k
    · simp [storeIn, lookupIn, h]
    · simp [storeIn, lookupIn, h, ih]

theorem lookupIn_storeIn_ne (l : List (κ × ν)) (k k₂ : κ) (v : ν) (hne : k₂ ≠ k) :
    lookupIn (storeIn l k v) k₂ = lookupIn l k₂ := by
  have hne' : ¬ k = k₂ := fun h => hne h.symm
  induction l with
  | nil => simp [storeIn, lookupIn, hne']
  | cons e rest ih =>
    obtain ⟨k', v'⟩ := e
    by_cases h : k' = k
    · subst h
      simp [storeIn, lookupIn, hne']
    · by_cases h₂ : k' = k₂
      · subst h₂
        simp [storeIn, lookupIn, h]
      · simp [storeIn, lookupIn, h, h₂, ih]

theorem lookupIn_filter_self (l : List (κ × ν)) (k : κ) :
    lookupIn (l.filter (fun e => decide (e.1 ≠ k))) k = none := by
  induction l with
  | nil => simp [lookupIn]
  | cons e rest ih =>
    obtain ⟨k', v'⟩ := e
    by_cases h : k' = k
    · rw [List.filter_cons_of_neg (by simp [h])]
      exact ih
    · rw [List.filter_cons_of_pos (by simp [h])]
      simp only [lookupIn, h, if_false]
      exact ih

theorem lookupIn_filter_ne (l : List (κ × ν)) (k k₂ : κ) (hne : k₂ ≠ k) :
    lookupIn (l.filter (fun e => decide (e.1 ≠ k))) k₂ = lookupIn l k₂ := by
  induction l with
  | nil => simp [lookupIn]
  | cons e rest ih =>
    obtain ⟨k', v'⟩ := e
    by_cases h : k' = k
    · rw [List.filter_cons_of_neg (by simp [h])]
      have : ¬ k' = k₂ := fun h₂ => hne (h₂.symm.trans h)
      simp only [lookupIn, this, if_false]
      exact ih
    · rw [List.filter_cons_of_pos (by simp [h])]
      by_cases h₂ : k' = k₂
      · simp only [lookupIn, h₂, if_true]
      · simp only [lookupIn, h₂, if_false]
        exact ih

theorem lookup_store_self (m : GoMap κ ν) (k : κ) (v : ν) :
    (m.store k v).lookup k = some v :=
  lookupIn_storeIn_self m.entries k v

theorem lookup_store_ne (m : GoMap κ ν) (k k₂ : κ) (v : ν) (hne : k₂ ≠ k) :
    (m.store k v).lookup k₂ = m.lookup k₂ :=
  lookupIn_storeIn_ne m.entries k k₂ v hne

theorem lookup_delete_self (m : GoMap κ ν) (k : κ) :
    (m.delete k).lookup k = none :=
  lookupIn_filter_self m.entries k

theorem lookup_delete_ne (m : GoMap κ ν) (k k₂ : κ) (hne : k₂ ≠ k) :
    (m.delete k).lookup k₂ = m.lookup k₂ :=
  lookupIn_filter_ne m.entries k k₂ hne

end GoMap

/-! ### The claim record store -/

theorem Memory.Add_of_stored (m : Memory) (podUID : UID) (claim : ResourceClaim)
    (h : m.Stores podUID claim.UID) : m.Add podUID claim = m := by
  obtain ⟨c, hc, hu⟩ := h
  unfold Memory.Get at hc
  unfold Memory.Add
  cases hl : m.podResources.lookup podUID with
  | none => simp [hl] at hc
  | some storedClaims =>
    simp only [hl, Option.getD_some] at hc
    have : storedClaims.any (fun storedClaim => decide (claim.UID = storedClaim.UID)) = true := by
      rw [List.any_eq_true]
      exact ⟨c, hc, by simp [hu]⟩
    simp [this]

theorem Memory.Add_of_fresh (m : Memory) (podUID : UID) (claim : ResourceClaim)
    (h : ¬ m.Stores podUID claim.UID) :
    m.Add podUID claim = ⟨m.podResources.store podUID (m.Get podUID ++ [claim])⟩ := by
  unfold Memory.Add
  cases hl : m.podResources.lookup podUID with
  | none => simp
  | some storedClaims =>
    have : storedClaims.any (fun storedClaim => decide (claim.UID = storedClaim.UID)) = false := by
      rw [Bool.eq_false_iff]
      intro hany
      rw [List.any_eq_true] at hany
      obtain ⟨c, hc, hu⟩ := hany
      apply h
      refine ⟨c, ?_, ?_⟩
      · simp [Memory.Get, hl, hc]
      · simpa using (Eq.symm (of_decide_eq_true hu))
    simp [this]

theorem Memory.Get_Add_fresh (m : Memory) (podUID : UID) (claim : ResourceClaim)
    (h : ¬ m.Stores podUID claim.UID) :
    (m.Add podUID claim).Get podUID = m.Get podUID ++ [claim] := by
  rw [Memory.Add_of_fresh m podUID claim h]
  simp [Memory.Get, GoMap.lookup_store_self]

theorem Memory.Get_Add_other (m : Memory) (podUID other : UID) (claim : ResourceClaim)
    (hne : other ≠ podUID) :
    (m.Add podUID claim).Get other = m.Get other := by
  by_cases h : m.Stores podUID claim.UID
  · rw [Memory.Add_of_stored m podUID claim h]
  · rw [Memory.Add_of_fresh m podUID claim h]
    simp [Memory.Get, GoMap.lookup_store_ne _ _ _ _ hne]

theorem Memory.Stores_Add (m : Memory) (podUID : UID) (claim : ResourceClaim) :
    (m.Add podUID claim).Stores podUID claim.UID := by
  by_cases h : m.Stores podUID claim.UID
  · rw [Memory.Add_of_stored m podUID claim h]; exact h
  · refine ⟨claim, ?_, rfl⟩
    rw [Memory.Get_Add_fresh m podUID claim h]
    simp

theorem Memory.Get_Delete_self (m : Memory) (podUID : UID) :
    (m.Delete podUID).Get podUID = [] := by
  simp [Memory.Get, Memory.Delete, GoMap.lookup_delete_self]

theorem Memory.Get_Delete_other (m : Memory) (podUID other : UID) (hne : other ≠ podUID) :
    (m.Delete podUID).Get other = m.Get other := by
  simp [Memory.Get, Memory.Delete, GoMap.lookup_delete_ne _ _ _ hne]

theorem Memory.distinct_Add (m : Memory) (podUID : UID) (claim : ResourceClaim)
    (h : ∀ w, DistinctUIDs (m.Get w)) : ∀ w, DistinctUIDs ((m.Add podUID claim).Get w) := by
  intro w
  by_cases hw : w = podUID
  · subst hw
    by_cases hs : m.Stores w claim.UID
    · rw [Memory.Add_of_stored m w claim hs]; exact h w
    · rw [Memory.Get_Add_fresh m w claim hs]
      unfold DistinctUIDs
      rw [List.pairwise_append]
      refine ⟨h w, List.pairwise_singleton _ _, ?_⟩
      intro a ha b hb
      rw [List.mem_singleton] at hb
      subst hb
      exact fun hu => hs ⟨a, ha, hu⟩
  · rw [Memory.Get_Add_other m podUID w claim hw]; exact h w

theorem Memory.distinct_Delete (m : Memory) (podUID : UID)
    (h : ∀ w, DistinctUIDs (m.Get w)) : ∀ w, DistinctUIDs ((m.Delete podUID).Get w) := by
  intro w
  by_cases hw : w = podUID
  · subst hw
    rw [Memory.Get_Delete_self]
    exact List.Pairwise.nil
  · rw [Memory.Get_Delete_other m podUID w hw]; exact h w

theorem Memory.distinct_foldl (ops : List StoreOp) (m : Memory)
    (h : ∀ w, DistinctUIDs (m.Get w)) :
    ∀ w, DistinctUIDs ((ops.foldl Memory.apply m).Get w) := by
  induction ops generalizing m with
  | nil => simpa using h
  | cons op rest ih =>
    rw [List.foldl_cons]
    apply ih
    cases op with
    | add podUID claim => exact Memory.distinct_Add m podUID claim h
    | delete podUID => exact Memory.distinct_Delete m podUID h

/-! ### Claims about the store -/

/-- C3: `Memory.Add` is idempotent per record identifier. For two records with
the same UID, `Add(pod, r1)` followed by `Add(pod, r2)` leaves the store as it
was after the first call: the pod's list has the same contents and length, and
the list of every other pod is the one it had before both calls. -/
theorem Memory_Add_same_UID_twice (m : Memory) (podUID : UID) (r1 r2 : ResourceClaim)
    (hUID : r1.UID = r2.UID) :
    (m.Add podUID r1).Add podUID r2 = m.Add podUID r1 ∧
    ((m.Add podUID r1).Add podUID r2).Get podUID = (m.Add podUID r1).Get podUID ∧
    (((m.Add podUID r1).Add podUID r2).Get podUID).length
      = ((m.Add podUID r1).Get podUID).length ∧
    ∀ other, other ≠ podUID →
      ((m.Add podUID r1).Add podUID r2).Get other = (m.Add podUID r1).Get other ∧
      ((m.Add podUID r1).Add podUID r2).Get other = m.Get other := by
  have hs : (m.Add podUID r1).Stores podUID r2.UID := by
    rw [← hUID]; exact Memory.Stores_Add m podUID r1
  have heq := Memory.Add_of_stored (m.Add podUID r1) podUID r2 hs
  refine ⟨heq, by rw [heq], by rw [heq], ?_⟩
  intro other hne
  rw [heq]
  exact ⟨rfl, Memory.Get_Add_other m podUID other r1 hne⟩

/-- C3 at a concrete input: two different records with the UID `u-1`, added for
the pod `pod-a` to a store that already holds a record for `pod-b`. -/
theorem Memory_Add_same_UID_twice_witness :
    let r1 : ResourceClaim := ⟨"claim-1", "default", "u-1", ⟨none, [], []⟩⟩
    let r2 : ResourceClaim := ⟨"claim-2", "kube-system", "u-1", ⟨none, [], []⟩⟩
    let r3 : ResourceClaim := ⟨"claim-3", "default", "u-3", ⟨none, [], []⟩⟩
    let m : Memory := NewMemory.Add "pod-b" r3
    r1.UID = r2.UID ∧ r1 ≠ r2 ∧
    ((m.Add "pod-a" r1).Add "pod-a" r2).Get "pod-a" = [r1] ∧
    ((m.Add "pod-a" r1).Add "pod-a" r2).Get "pod-b" = [r3] := by
  intro r1 r2 r3 m
  have h := Memory_Add_same_UID_twice m "pod-a" r1 r2 rfl
  refine ⟨rfl, by decide, ?_, ?_⟩
  · rw [h.2.1]; decide
  · rw [(h.2.2.2 "pod-b" (by decide)).2]; decide

/-- C4: in every store state reached from `NewMemory()` by a finite sequence of
`Add` and `Delete` calls, no pod's stored list holds two records with the same
UID. -/
theorem Memory_reachable_distinct_UIDs (ops : List StoreOp) (podUID : UID) :
    DistinctUIDs ((Memory.run ops).Get podUID) := by
  unfold Memory.run
  apply Memory.distinct_foldl
  intro w
  exact List.Pairwise.nil

/-- C5: when no record with the UID of `r` is stored under the pod, `Add`
appends `r` as the last element of the pod's list (the list being empty when
the pod was absent), earlier records keep their positions, and the list of
every other pod is unchanged. -/
theorem Memory_Add_fresh_appends (m : Memory) (podUID : UID) (r : ResourceClaim)
    (hfresh : ∀ c ∈ m.Get podUID, c.UID ≠ r.UID) :
    (m.Add podUID r).Get podUID = m.Get podUID ++ [r] ∧
    (m.podResources.lookup podUID = none → (m.Add podUID r).Get podUID = [r]) ∧
    ((m.Add podUID r).Get podUID).getLast? = some r ∧
    (∀ i, i < (m.Get podUID).length →
      ((m.Add podUID r).Get podUID)[i]? = (m.Get podUID)[i]?) ∧
    ∀ other, other ≠ podUID → (m.Add podUID r).Get other = m.Get other := by
  have hs : ¬ m.Stores podUID r.UID := by
    rintro ⟨c, hc, hu⟩
    exact hfresh c hc hu
  have hget := Memory.Get_Add_fresh m podUID r hs
  refine ⟨hget, ?_, ?_, ?_, ?_⟩
  · intro hnone
    rw [hget]
    simp [Memory.Get, hnone]
  · rw [hget]; simp
  · intro i hi
    rw [hget, List.getElem?_append_left hi]
  · intro other hne
    exact Memory.Get_Add_other m podUID other r hne

/-- C5 at a concrete input: a record with a new UID added to a pod that
already holds one record. -/
theorem Memory_Add_fresh_appends_witness :
    let r1 : ResourceClaim := ⟨"claim-1", "default", "u-1", ⟨none, [], []⟩⟩
    let r2 : ResourceClaim := ⟨"claim-2", "default", "u-2", ⟨none, [], []⟩⟩
    let m : Memory := NewMemory.Add "pod-a" r1
    (∀ c ∈ m.Get "pod-a", c.UID ≠ r2.UID) ∧
    (m.Add "pod-a" r2).Get "pod-a" = [r1, r2] := by
  intro r1 r2 m
  have hfresh : ∀ c ∈ m.Get "pod-a", c.UID ≠ r2.UID := by decide
  refine ⟨hfresh, ?_⟩
  rw [(Memory_Add_fresh_appends m "pod-a" r2 hfresh).1]
  decide


/-! ### The network attach runtime -/

section cni

variable {σ C R : Type}

theorem Runtime.add_log (rntm : Runtime σ C R) (sb uid name ns netns : String)
    (cfg : CNIConfig) (w : World σ C R) :
    ((rntm.add sb uid name ns netns cfg w).2 = w ∧
        ∃ e, (rntm.add sb uid name ns netns cfg w).1 = .error e) ∨
    ∃ c rt, (rntm.add sb uid name ns netns cfg w).2.log = w.log ++ [.pluginInvoked c rt] := by
  unfold Runtime.add
  split
  · left; exact ⟨rfl, _, rfl⟩
  · split
    · right; exact ⟨_, _, rfl⟩
    · right; exact ⟨_, _, rfl⟩

theorem Runtime.handleClaim_not_actionable (rntm : Runtime σ C R)
    (sb uid name ns netns : String) (claim : ResourceClaim) (w : World σ C R)
    (h : ¬ Actionable rntm.driverName claim) :
    rntm.handleClaim sb uid name ns netns claim w = (none, w) := by
  unfold Runtime.handleClaim
  split
  · rfl
  · rename_i allocation hA
    split
    · rename_i result₀ config₀ hR hC
      split
      · rfl
      · rename_i hd
        split
        · rfl
        · rename_i opq hO
          split
          · rfl
          · rename_i hd2
            exfalso
            apply h
            refine ⟨allocation, hA, by simp [hR], by simp [hC], ?_, ?_⟩
            · intro r hr
              rw [hR, List.mem_singleton] at hr
              subst hr
              exact not_not.mp hd
            · intro c hc
              rw [hC, List.mem_singleton] at hc
              subst hc
              exact ⟨opq, hO, not_not.mp hd2⟩
    · rfl

theorem Runtime.handleClaim_log (rntm : Runtime σ C R)
    (sb uid name ns netns : String) (claim : ResourceClaim) (w : World σ C R) :
    (rntm.handleClaim sb uid name ns netns claim w).2 = w ∨
    (∃ c rt, (rntm.handleClaim sb uid name ns netns claim w).2.log
        = w.log ++ [.pluginInvoked c rt]) ∨
    (∃ c rt res, (rntm.handleClaim sb uid name ns netns claim w).2.log
        = w.log ++ [.pluginInvoked c rt, .statusReported claim res]) := by
  unfold Runtime.handleClaim
  split
  · left; rfl
  · split
    · split
      · left; rfl
      · split
        · left; rfl
        · split
          · left; rfl
          · split
            · left; rfl
            · rename_i cniConfig _
              have hadd := Runtime.add_log rntm sb uid name ns netns cniConfig w
              split
              · rename_i err w₁ heq
                rw [heq] at hadd
                rcases hadd with ⟨h, _⟩ | ⟨c, rt, h⟩
                · left; exact h
                · right; left; exact ⟨c, rt, h⟩
              · rename_i result w₁ heq
                rw [heq] at hadd
                rcases hadd with ⟨_, e, h⟩ | ⟨c, rt, h⟩
                · cases h
                · simp only at h
                  split
                  · right; left; exact ⟨c, rt, h⟩
                  · split
                    · right; right
                      refine ⟨c, rt, result, ?_⟩
                      simp [h]
                    · right; right
                      refine ⟨c, rt, result, ?_⟩
                      simp [h]
    · left; rfl


theorem Runtime.attachLoop_stops (rntm : Runtime σ C R) (sb uid name ns netns : String)
    (pre : List ResourceClaim) (claim : ResourceClaim) (post : List ResourceClaim)
    (w w₁ w₂ : World σ C R) (err : AttachError R)
    (hpre : HandledOk rntm sb uid name ns netns pre w w₁)
    (hclaim : rntm.handleClaim sb uid name ns netns claim w₁ = (some err, w₂)) :
    rntm.attachLoop sb uid name ns netns (pre ++ claim :: post) w = (some err, w₂) := by
  induction hpre with
  | nil w => simp [Runtime.attachLoop, hclaim]
  | cons c rest w w' w'' hc _ ih =>
    simp only [List.cons_append, Runtime.attachLoop, hc]
    exact ih hclaim

theorem Runtime.attachLoop_ok (rntm : Runtime σ C R) (sb uid name ns netns : String)
    (claims : List ResourceClaim) (w w' : World σ C R)
    (h : HandledOk rntm sb uid name ns netns claims w w') :
    rntm.attachLoop sb uid name ns netns claims w = (none, w') := by
  induction h with
  | nil w => rfl
  | cons c rest w w₁ w₂ hc _ ih =>
    simp only [Runtime.attachLoop, hc]
    exact ih

theorem Runtime.attachLoop_cases (rntm : Runtime σ C R) (sb uid name ns netns : String)
    (claims : List ResourceClaim) (w : World σ C R) :
    (∃ w', HandledOk rntm sb uid name ns netns claims w w') ∨
    ∃ pre claim post w₁ err w₂, claims = pre ++ claim :: post ∧
      HandledOk rntm sb uid name ns netns pre w w₁ ∧
      rntm.handleClaim sb uid name ns netns claim w₁ = (some err, w₂) := by
  induction claims generalizing w with
  | nil => left; exact ⟨w, HandledOk.nil w⟩
  | cons c rest ih =>
    cases hc : rntm.handleClaim sb uid name ns netns c w with
    | mk e w₁ =>
      cases e with
      | some err =>
        right
        exact ⟨[], c, rest, w, err, w₁, rfl, HandledOk.nil w, hc⟩
      | none =>
        rcases ih w₁ with ⟨w', h⟩ | ⟨pre, claim, post, w₂, err, w₃, hsplit, hpre, hfail⟩
        · left; exact ⟨w', HandledOk.cons c rest w w₁ w' hc h⟩
        · right
          refine ⟨c :: pre, claim, post, w₂, err, w₃, ?_, ?_, hfail⟩
          · rw [hsplit]; rfl
          · exact HandledOk.cons c pre w w₁ w₂ hc hpre

/-- C1: `Runtime.handleClaim` invokes the network plugin, and after it the
status reporter, only for a network-actionable record. For a record that is
not actionable it returns no error and leaves the world, log included, as it
was. In every case the calls it adds to the log are none, one plugin
invocation, or one plugin invocation followed by one status report for the
record, and it adds a call only when the record is actionable. -/
theorem handleClaim_invokes_only_actionable (rntm : Runtime σ C R)
    (podSandBoxID podUID podName podNamespace podNetworkNamespace : String)
    (claim : ResourceClaim) (w : World σ C R) :
    (¬ Actionable rntm.driverName claim →
      rntm.handleClaim podSandBoxID podUID podName podNamespace podNetworkNamespace
        claim w = (none, w)) ∧
    ∃ calls, (rntm.handleClaim podSandBoxID podUID podName podNamespace
        podNetworkNamespace claim w).2.log = w.log ++ calls ∧
      (calls ≠ [] → Actionable rntm.driverName claim) ∧
      (calls = [] ∨ (∃ c rt, calls = [.pluginInvoked c rt]) ∨
        ∃ c rt res, calls = [.pluginInvoked c rt, .statusReported claim res]) := by
  have hskip := Runtime.handleClaim_not_actionable rntm podSandBoxID podUID podName
    podNamespace podNetworkNamespace claim w
  refine ⟨hskip, ?_⟩
  by_cases hact : Actionable rntm.driverName claim
  · rcases Runtime.handleClaim_log rntm podSandBoxID podUID podName podNamespace
      podNetworkNamespace claim w with h | ⟨c, rt, h⟩ | ⟨c, rt, res, h⟩
    · exact ⟨[], by rw [h]; simp, fun _ => hact, Or.inl rfl⟩
    · exact ⟨_, h, fun _ => hact, Or.inr (Or.inl ⟨c, rt, rfl⟩)⟩
    · exact ⟨_, h, fun _ => hact, Or.inr (Or.inr ⟨c, rt, res, rfl⟩)⟩
  · exact ⟨[], by rw [hskip hact]; simp, fun h => absurd rfl h, Or.inl rfl⟩

/-- C2: `Runtime.AttachNetworks` handles the records stored for the pod in
stored order and stops at the first record whose handling fails. When the
records before some record are all handled without error and that record's
handling fails, the call returns that error and the world is the one right
after that record's handling, so nothing is done for the later records; when
every record is handled without error the call returns no error; one of the
two is always the case; and with no stored record the call returns no error
and leaves the world, log included, as it was. -/
theorem AttachNetworks_fail_fast (rntm : Runtime σ C R)
    (podSandBoxID podUID podName podNamespace podNetworkNamespace : String)
    (w : World σ C R) :
    (∀ pre claim post w₁ err w₂,
      rntm.podResourceStore.Get podUID = pre ++ claim :: post →
      HandledOk rntm podSandBoxID podUID podName podNamespace podNetworkNamespace
        pre w w₁ →
      rntm.handleClaim podSandBoxID podUID podName podNamespace podNetworkNamespace
        claim w₁ = (some err, w₂) →
      rntm.AttachNetworks podSandBoxID podUID podName podNamespace
        podNetworkNamespace w = (some err, w₂)) ∧
    (∀ w', HandledOk rntm podSandBoxID podUID podName podNamespace
        podNetworkNamespace (rntm.podResourceStore.Get podUID) w w' →
      rntm.AttachNetworks podSandBoxID podUID podName podNamespace
        podNetworkNamespace w = (none, w')) ∧
    ((∃ w', HandledOk rntm podSandBoxID podUID podName podNamespace
        podNetworkNamespace (rntm.podResourceStore.Get podUID) w w') ∨
      ∃ pre claim post w₁ err w₂,
        rntm.podResourceStore.Get podUID = pre ++ claim :: post ∧
        HandledOk rntm podSandBoxID podUID podName podNamespace podNetworkNamespace
          pre w w₁ ∧
        rntm.handleClaim podSandBoxID podUID podName podNamespace
          podNetworkNamespace claim w₁ = (some err, w₂)) ∧
    (rntm.podResourceStore.Get podUID = [] →
      rntm.AttachNetworks podSandBoxID podUID podName podNamespace
        podNetworkNamespace w = (none, w)) := by
  refine ⟨?_, ?_, ?_, ?_⟩
  · intro pre claim post w₁ err w₂ hget hpre hclaim
    unfold Runtime.AttachNetworks
    rw [hget]
    exact Runtime.attachLoop_stops rntm _ _ _ _ _ pre claim post w w₁ w₂ err hpre hclaim
  · intro w' h
    exact Runtime.attachLoop_ok rntm _ _ _ _ _ _ w w' h
  · exact Runtime.attachLoop_cases rntm _ _ _ _ _ _ w
  · intro hget
    unfold Runtime.AttachNetworks
    rw [hget]
    rfl

/-- C1 on the test double: a record whose device result names another driver
is skipped without a call, and a record for the driver has the plugin invoked
once and then its status reported. -/
theorem handleClaim_invokes_only_actionable_witness :
    (spyRuntime NewMemory).handleClaim "sb" "pod-a" "p" "default" "/netns"
        (spyClaim "u-1" "gpu.example.com" [1]) spyWorld = (none, spyWorld) ∧
    ((spyRuntime NewMemory).handleClaim "sb" "pod-a" "p" "default" "/netns"
        (spyClaim "u-2" spyDriverName [1]) spyWorld).2.log.length = 2 := by
  refine ⟨?_, by decide⟩
  apply (handleClaim_invokes_only_actionable (spyRuntime NewMemory) "sb" "pod-a" "p"
    "default" "/netns" (spyClaim "u-1" "gpu.example.com" [1]) spyWorld).1
  rintro ⟨allocation, hA, _, _, hdrv, _⟩
  have hA' : allocation = ⟨⟨[⟨"req", "gpu.example.com", "pool", "dev", none⟩],
      [⟨"FromClaim", ["req"], some ⟨spyDriverName, [1]⟩⟩]⟩⟩ := by
    simpa [spyClaim] using hA.symm
  subst hA'
  have := hdrv _ (List.mem_singleton.mpr rfl)
  revert this
  decide

/-- C2 on the test double: of three actionable records stored for one pod,
the plugin fails for the second; the call returns that error after two plugin
invocations and one status report, and nothing is logged for the third. -/
theorem AttachNetworks_fail_fast_witness :
    (spyRuntime (((NewMemory.Add "pod-a" (spyClaim "u-1" spyDriverName [1])).Add "pod-a"
        (spyClaim "u-2" spyDriverName [0])).Add "pod-a"
        (spyClaim "u-3" spyDriverName [3]))).AttachNetworks
      "sb" "pod-a" "p" "default" "/netns" spyWorld
    = (some (.addNetwork "plugin failed"),
        ⟨2, [.pluginInvoked [1] (Runtime.runtimeConf "sb" "pod-a" "p" "default" "/netns"
                ⟨"net1", [1]⟩),
             .statusReported (spyClaim "u-1" spyDriverName [1]) "net1",
             .pluginInvoked [0] (Runtime.runtimeConf "sb" "pod-a" "p" "default" "/netns"
                ⟨"net1", [0]⟩)]⟩) := by
  refine (AttachNetworks_fail_fast _ "sb" "pod-a" "p" "default" "/netns" spyWorld).1
    [spyClaim "u-1" spyDriverName [1]] (spyClaim "u-2" spyDriverName [0])
    [spyClaim "u-3" spyDriverName [3]]
    ⟨1, [.pluginInvoked [1] (Runtime.runtimeConf "sb" "pod-a" "p" "default" "/netns"
            ⟨"net1", [1]⟩),
         .statusReported (spyClaim "u-1" spyDriverName [1]) "net1"]⟩ _ _ ?_ ?_ ?_
  · decide
  · exact HandledOk.cons _ _ _ _ _ (by decide) (HandledOk.nil _)
  · decide

end cni


/-! ### The allocation callback handler -/

namespace GoMap

variable {κ ν : Type} [DecidableEq κ]

theorem storeIn_of_not_mem (l : List (κ × ν)) (k : κ) (v : ν)
    (h : k ∉ l.map Prod.fst) : storeIn l k v = l ++ [(k, v)] := by
  induction l with
  | nil => rfl
  | cons e rest ih =>
    obtain ⟨k', v'⟩ := e
    simp only [List.map_cons, List.mem_cons, not_or] at h
    have hne : ¬ k' = k := fun hk => h.1 hk.symm
    simp [storeIn, hne, ih h.2]

theorem lookupIn_eq_none_of_not_mem (l : List (κ × ν)) (k : κ)
    (h : k ∉ l.map Prod.fst) : lookupIn l k = none := by
  induction l with
  | nil => rfl
  | cons e rest ih =>
    obtain ⟨k', v'⟩ := e
    simp only [List.map_cons, List.mem_cons, not_or] at h
    have hne : ¬ k' = k := fun hk => h.1 hk.symm
    simp [lookupIn, hne, ih h.2]

theorem mem_keys_of_lookupIn_isSome (l : List (κ × ν)) (k : κ)
    (h : (lookupIn l k).isSome) : k ∈ l.map Prod.fst := by
  by_contra hk
  rw [lookupIn_eq_none_of_not_mem l k hk] at h
  simp at h

end GoMap

section dra

variable {S : Type}

theorem Driver.devicesLoop_eq (results : List DeviceRequestAllocationResult)
    (devices : List Device) :
    Driver.devicesLoop results devices
      = devices ++ results.map (fun result => ⟨result.Pool, result.Device⟩) := by
  induction results generalizing devices with
  | nil => simp [Driver.devicesLoop]
  | cons r rest ih => simp [Driver.devicesLoop, ih]

theorem Driver.reserveLoop_eq (d : Driver S) (claim : ResourceClaim)
    (refs : List ResourceClaimConsumerReference) (s : S) :
    d.reserveLoop claim refs s
      = (refs.filter (fun r => decide (IsPodReservation r))).foldl
          (fun st r => d.podResourceStore.Add r.UID claim st) s := by
  induction refs generalizing s with
  | nil => rfl
  | cons r rest ih =>
    by_cases hpod : IsPodReservation r
    · have hcond : ¬ (r.Resource ≠ "pods" ∨ r.APIGroup ≠ "") := by
        rintro (h | h)
        · exact h hpod.1
        · exact h hpod.2
      rw [List.filter_cons_of_pos (by simpa using hpod)]
      simp only [Driver.reserveLoop, hcond, if_false, List.foldl_cons]
      exact ih _
    · have hcond : r.Resource ≠ "pods" ∨ r.APIGroup ≠ "" := by
        by_contra hc
        rw [not_or, not_not, not_not] at hc
        exact hpod hc
      rw [List.filter_cons_of_neg (by simpa using hpod)]
      simp only [Driver.reserveLoop, hcond, if_true]
      exact ih _

theorem Driver.nodePrepareResource_allocated (d : Driver S) (claim : ResourceClaim)
    (allocation : AllocationResult) (s : S)
    (h : claim.Status.Allocation = some allocation) :
    d.nodePrepareResource (some claim) s
      = (.ok (allocatedDevices allocation), d.reserveLoop claim claim.Status.ReservedFor s) := by
  simp [Driver.nodePrepareResource, h, Driver.devicesLoop_eq, allocatedDevices]

theorem Driver.nodePrepareResource_unallocated (d : Driver S) (claim : ResourceClaim) (s : S)
    (h : claim.Status.Allocation = none) :
    d.nodePrepareResource (some claim) s
      = (.error (.notAllocated claim.Namespace claim.Name), s) := by
  simp [Driver.nodePrepareResource, h]

theorem Driver.prepareLoop_eq (d : Driver S) (claims : List ResourceClaim)
    (result : GoMap UID PrepareResult) (s : S) :
    d.prepareLoop (claims.map some) result s
      = some (claims.foldl (fun r c => r.store c.UID (prepareEntry c)) result,
          claims.foldl (fun st c => (d.nodePrepareResource (some c) st).2) s) := by
  induction claims generalizing result s with
  | nil => rfl
  | cons c rest ih =>
    cases hA : c.Status.Allocation with
    | none =>
      simp only [List.map_cons, Driver.prepareLoop, List.foldl_cons,
        Driver.nodePrepareResource_unallocated d c s hA, prepareEntry, hA]
      exact ih _ _
    | some allocation =>
      simp only [List.map_cons, Driver.prepareLoop, List.foldl_cons,
        Driver.nodePrepareResource_allocated d c allocation s hA, prepareEntry, hA]
      exact ih _ _

theorem prepare_entries (claims : List ResourceClaim) (acc : GoMap UID PrepareResult)
    (hdist : DistinctUIDs claims) (hnew : ∀ c ∈ claims, c.UID ∉ acc.entries.map Prod.fst) :
    (claims.foldl (fun r c => r.store c.UID (prepareEntry c)) acc).entries
      = acc.entries ++ claims.map (fun c => (c.UID, prepareEntry c)) := by
  induction claims generalizing acc with
  | nil => simp
  | cons c rest ih =>
    unfold DistinctUIDs at hdist
    rw [List.pairwise_cons] at hdist
    rw [List.foldl_cons, ih _ hdist.2]
    · simp [GoMap.store, GoMap.storeIn_of_not_mem _ _ _ (hnew c (List.mem_cons_self _ _))]
    · intro x hx
      simp only [GoMap.store, GoMap.storeIn_of_not_mem _ _ _ (hnew c (List.mem_cons_self _ _)),
        List.map_append, List.map_cons, List.map_nil, List.mem_append, List.mem_singleton,
        not_or]
      exact ⟨hnew x (List.mem_cons_of_mem _ hx), fun h => hdist.1 x hx h.symm⟩

theorem lookupIn_prepare_entries (claims : List ResourceClaim) (c : ResourceClaim)
    (hdist : DistinctUIDs claims) (hc : c ∈ claims) :
    GoMap.lookupIn (claims.map (fun c => (c.UID, prepareEntry c))) c.UID
      = some (prepareEntry c) := by
  induction claims with
  | nil => simp at hc
  | cons x rest ih =>
    unfold DistinctUIDs at hdist
    rw [List.pairwise_cons] at hdist
    rw [List.mem_cons] at hc
    rcases hc with rfl | hc
    · simp [GoMap.lookupIn]
    · have hne : ¬ x.UID = c.UID := hdist.1 c hc
      simp only [List.map_cons, GoMap.lookupIn, hne, if_false]
      exact ih hdist.2 hc

theorem Driver.PrepareResourceClaims_eq (d : Driver S) (claims : List ResourceClaim) (s : S)
    (hfail : d.prepareResourcesFailure = none) (hdist : DistinctUIDs claims) :
    d.PrepareResourceClaims (claims.map some) s
      = some ({ result := some ⟨claims.map (fun c => (c.UID, prepareEntry c))⟩, err := none },
          claims.foldl (fun st c => (d.nodePrepareResource (some c) st).2) s) := by
  have hentries := prepare_entries claims GoMap.empty hdist (by simp [GoMap.empty])
  simp only [GoMap.empty, List.nil_append] at hentries
  simp only [Driver.PrepareResourceClaims, hfail, Driver.prepareLoop_eq]
  congr 3
  rw [← hentries]
  rfl

theorem Driver.store_unchanged_of_unallocated (d : Driver S) (claim : ResourceClaim) (s : S)
    (h : claim.Status.Allocation = none) : (d.nodePrepareResource (some claim) s).2 = s := by
  rw [Driver.nodePrepareResource_unallocated d claim s h]

theorem prepareEntry_Err (claim : ResourceClaim) :
    (prepareEntry claim).Err ≠ none ↔ claim.Status.Allocation = none := by
  unfold prepareEntry
  cases claim.Status.Allocation <;> simp

theorem DistinctUIDs_remove (pre post : List ResourceClaim) (c : ResourceClaim)
    (h : DistinctUIDs (pre ++ c :: post)) : DistinctUIDs (pre ++ post) := by
  unfold DistinctUIDs at *
  exact h.sublist (List.Sublist.append_left (List.sublist_cons_self c post) pre)

theorem Driver.PrepareResourceClaims_spec (d : Driver S) (claims : List ResourceClaim) (s : S)
    (hfail : d.prepareResourcesFailure = none) (hdist : DistinctUIDs claims) :
    ∃ result s', d.PrepareResourceClaims (claims.map some) s
        = some ({ result := some result, err := none }, s') ∧
      result.len = claims.length ∧
      (∀ uid, (result.lookup uid).isSome ↔ ∃ c ∈ claims, c.UID = uid) ∧
      (∀ c ∈ claims, result.lookup c.UID = some (prepareEntry c)) ∧
      (∀ pre c post, claims = pre ++ c :: post → c.Status.Allocation = none →
        ∃ result₀, d.PrepareResourceClaims ((pre ++ post).map some) s
            = some ({ result := some result₀, err := none }, s') ∧
          ∀ c' ∈ pre ++ post, result.lookup c'.UID = result₀.lookup c'.UID) := by
  refine ⟨_, _, Driver.PrepareResourceClaims_eq d claims s hfail hdist, ?_, ?_, ?_, ?_⟩
  · simp [GoMap.len]
  · intro uid
    constructor
    · intro h
      have := GoMap.mem_keys_of_lookupIn_isSome _ _ h
      simpa using this
    · rintro ⟨c, hc, rfl⟩
      simp [GoMap.lookup, lookupIn_prepare_entries claims c hdist hc]
  · intro c hc
    exact lookupIn_prepare_entries claims c hdist hc
  · intro pre c post hsplit hA
    subst hsplit
    have hdist₀ := DistinctUIDs_remove pre post c hdist
    refine ⟨⟨(pre ++ post).map (fun c => (c.UID, prepareEntry c))⟩, ?_, ?_⟩
    · rw [Driver.PrepareResourceClaims_eq d (pre ++ post) s hfail hdist₀]
      simp [List.foldl_append, Driver.store_unchanged_of_unallocated d c _ hA]
    · intro c' hc'
      have hmem : c' ∈ pre ++ c :: post := by
        rw [List.mem_append] at hc' ⊢
        rcases hc' with h | h
        · exact Or.inl h
        · exact Or.inr (List.mem_cons_of_mem _ h)
      simp only [GoMap.lookup]
      rw [lookupIn_prepare_entries _ c' hdist hmem, lookupIn_prepare_entries _ c' hdist₀ hc']

theorem recording_foldl (claim : ResourceClaim) (refs : List ResourceClaimConsumerReference)
    (calls : List (UID × ResourceClaim)) :
    refs.foldl (fun st r => recordingDriver.podResourceStore.Add r.UID claim st) calls
      = calls ++ refs.map (fun r => (r.UID, claim)) := by
  induction refs generalizing calls with
  | nil => simp
  | cons r rest ih =>
    rw [List.foldl_cons, ih]
    simp [recordingDriver, recordingStore]

/-- C6: with no injected failure, for a batch of non-nil records with pairwise
distinct UIDs, `PrepareResourceClaims` returns (it does not panic) a nil batch
error and a result map with exactly one entry per record; a record's entry
carries an error exactly when the record lacks allocation state; preparing
such a record leaves the store as it was, and a batch of one such record
leaves an empty `store.Memory` empty; and without such a record in the batch
the returned store and the entries of the other records are the same. -/
theorem PrepareResourceClaims_per_record_errors (d : Driver S)
    (claims : List ResourceClaim) (s : S)
    (hfail : d.prepareResourcesFailure = none) (hdist : DistinctUIDs claims) :
    ∃ result s', d.PrepareResourceClaims (claims.map some) s
        = some ({ result := some result, err := none }, s') ∧
      result.len = claims.length ∧
      (∀ uid, (result.lookup uid).isSome ↔ ∃ c ∈ claims, c.UID = uid) ∧
      (∀ c ∈ claims, ∃ entry, result.lookup c.UID = some entry ∧
        (entry.Err ≠ none ↔ c.Status.Allocation = none)) ∧
      (∀ c st, c.Status.Allocation = none → (d.nodePrepareResource (some c) st).2 = st) ∧
      (∀ c, c.Status.Allocation = none →
        ∃ result₁ entry, memoryDriver.PrepareResourceClaims [some c] NewMemory
            = some ({ result := some result₁, err := none }, NewMemory) ∧
          result₁.len = 1 ∧ result₁.lookup c.UID = some entry ∧ entry.Err ≠ none) ∧
      (∀ pre c post, claims = pre ++ c :: post → c.Status.Allocation = none →
        ∃ result₀, d.PrepareResourceClaims ((pre ++ post).map some) s
            = some ({ result := some result₀, err := none }, s') ∧
          ∀ c' ∈ pre ++ post, result.lookup c'.UID = result₀.lookup c'.UID) := by
  obtain ⟨result, s', hret, hlen, hkeys, hentry, hwithout⟩ :=
    Driver.PrepareResourceClaims_spec d claims s hfail hdist
  refine ⟨result, s', hret, hlen, hkeys, ?_, ?_, ?_, hwithout⟩
  · intro c hc
    exact ⟨prepareEntry c, hentry c hc, prepareEntry_Err c⟩
  · intro c st hA
    exact Driver.store_unchanged_of_unallocated d c st hA
  · intro c hA
    have hone : DistinctUIDs [c] := List.pairwise_singleton _ _
    have heq := Driver.PrepareResourceClaims_eq memoryDriver [c] NewMemory rfl hone
    simp only [List.map_cons, List.map_nil, List.foldl_cons, List.foldl_nil,
      Driver.store_unchanged_of_unallocated memoryDriver c NewMemory hA] at heq
    refine ⟨_, prepareEntry c, heq, rfl, ?_, (prepareEntry_Err c).mpr hA⟩
    simp [GoMap.lookup, GoMap.lookupIn]

/-- C6 at a concrete input: a batch of an unallocated and an allocated record
on an empty `store.Memory`. -/
theorem PrepareResourceClaims_per_record_errors_witness :
    DistinctUIDs [unallocatedClaim "u-1", reservedClaim "u-2"] ∧
    ∃ result s', memoryDriver.PrepareResourceClaims
        ([unallocatedClaim "u-1", reservedClaim "u-2"].map some) NewMemory
        = some ({ result := some result, err := none }, s') ∧
      result.len = 2 ∧
      (∃ entry, result.lookup "u-1" = some entry ∧ entry.Err ≠ none) ∧
      (∃ entry, result.lookup "u-2" = some entry ∧ entry.Err = none) := by
  have hdist : DistinctUIDs [unallocatedClaim "u-1", reservedClaim "u-2"] := by decide
  obtain ⟨result, s', hret, hlen, _, hentry, _⟩ :=
    PrepareResourceClaims_per_record_errors memoryDriver
      [unallocatedClaim "u-1", reservedClaim "u-2"] NewMemory rfl hdist
  refine ⟨hdist, result, s', hret, hlen, ?_, ?_⟩
  · obtain ⟨entry, hl, herr⟩ := hentry (unallocatedClaim "u-1") (by simp)
    exact ⟨entry, hl, herr.mpr rfl⟩
  · obtain ⟨entry, hl, herr⟩ := hentry (reservedClaim "u-2") (by simp)
    refine ⟨entry, hl, ?_⟩
    by_contra hne
    have := herr.mp hne
    revert this
    decide

/-- C7: for a record with allocation state, `nodePrepareResource` calls the
store's `Add` with (reservation UID, record) once for each pod reservation of
the record, in reservation order, and makes no call for a reservation of
another kind; it returns the devices and no error whatever the kinds of the
reservations. The first part states it for any store, the last for a store
that records the calls it receives. -/
theorem nodePrepareResource_adds_pod_reservations (d : Driver S) (claim : ResourceClaim)
    (allocation : AllocationResult) (s : S)
    (halloc : claim.Status.Allocation = some allocation) :
    (d.nodePrepareResource (some claim) s).2
      = (claim.Status.ReservedFor.filter (fun r => decide (IsPodReservation r))).foldl
          (fun st r => d.podResourceStore.Add r.UID claim st) s ∧
    (∃ devices, (d.nodePrepareResource (some claim) s).1 = .ok devices) ∧
    (recordingDriver.nodePrepareResource (some claim) []).2
      = (claim.Status.ReservedFor.filter (fun r => decide (IsPodReservation r))).map
          (fun r => (r.UID, claim)) := by
  refine ⟨?_, ?_, ?_⟩
  · rw [Driver.nodePrepareResource_allocated d claim allocation s halloc,
      Driver.reserveLoop_eq]
  · rw [Driver.nodePrepareResource_allocated d claim allocation s halloc]
    exact ⟨_, rfl⟩
  · rw [Driver.nodePrepareResource_allocated recordingDriver claim allocation [] halloc,
      Driver.reserveLoop_eq, recording_foldl]
    simp

/-- C7 at a concrete input: a record reserved for a pod, a deployment and a
second pod is added for the two pods, in this order. -/
theorem nodePrepareResource_adds_pod_reservations_witness :
    (recordingDriver.nodePrepareResource (some (reservedClaim "u-1")) []).2
      = [("pod-a", reservedClaim "u-1"), ("pod-b", reservedClaim "u-1")] := by
  rw [(nodePrepareResource_adds_pod_reservations recordingDriver (reservedClaim "u-1")
    _ [] rfl).2.2]
  decide

/-- C8: for a record with allocation state in a batch of non-nil records with
pairwise distinct UIDs (no injected failure), the entry `PrepareResourceClaims`
reports for it has no error and its devices are the (pool, device name) pairs
of the record's allocated device results, same length and same order; a record
whose results have the same pools and device names gets the same payload
whatever its reservations and the driver names of its results. -/
theorem PrepareResourceClaims_payload (d : Driver S) (claims : List ResourceClaim) (s : S)
    (claim : ResourceClaim) (allocation : AllocationResult)
    (hfail : d.prepareResourcesFailure = none) (hdist : DistinctUIDs claims)
    (hmem : claim ∈ claims) (halloc : claim.Status.Allocation = some allocation) :
    ∃ result s' payload, d.PrepareResourceClaims (claims.map some) s
        = some ({ result := some result, err := none }, s') ∧
      result.lookup claim.UID = some { Devices := payload, Err := none } ∧
      payload = allocation.Devices.Results.map (fun r => (⟨r.Pool, r.Device⟩ : Device)) ∧
      payload.length = allocation.Devices.Results.length ∧
      (∀ i : Nat, payload[i]? = (allocation.Devices.Results[i]?).map
        (fun (r : DeviceRequestAllocationResult) => (⟨r.Pool, r.Device⟩ : Device))) ∧
      (∀ (d₂ : Driver S) (claim₂ : ResourceClaim) (allocation₂ : AllocationResult) (s₂ : S),
        claim₂.Status.Allocation = some allocation₂ →
        allocation₂.Devices.Results.map (fun r => (r.Pool, r.Device))
          = allocation.Devices.Results.map (fun r => (r.Pool, r.Device)) →
        (d₂.nodePrepareResource (some claim₂) s₂).1 = .ok payload) := by
  obtain ⟨result, s', hret, _, _, hentry, _⟩ :=
    Driver.PrepareResourceClaims_spec d claims s hfail hdist
  refine ⟨result, s', allocation.Devices.Results.map (fun r => (⟨r.Pool, r.Device⟩ : Device)),
    hret, ?_, rfl, by simp, ?_, ?_⟩
  · rw [hentry claim hmem]
    simp [prepareEntry, halloc, allocatedDevices]
  · intro i
    simp
  · intro d₂ claim₂ allocation₂ s₂ halloc₂ hsame
    rw [Driver.nodePrepareResource_allocated d₂ claim₂ allocation₂ s₂ halloc₂]
    simp only [allocatedDevices]
    have h := congrArg (List.map (fun p : String × String => (⟨p.1, p.2⟩ : Device))) hsame
    simp only [List.map_map] at h
    exact congrArg Except.ok h

/-- C8 at a concrete input: the payload of a record with two allocated
devices. -/
theorem PrepareResourceClaims_payload_witness :
    ∃ result s', memoryDriver.PrepareResourceClaims
        ([unallocatedClaim "u-1", reservedClaim "u-2"].map some) NewMemory
        = some ({ result := some result, err := none }, s') ∧
      result.lookup "u-2"
        = some { Devices := [⟨"pool-a", "gpu-0"⟩, ⟨"pool-b", "nic-0"⟩], Err := none } := by
  obtain ⟨result, s', payload, hret, hlook, hpay, _⟩ :=
    PrepareResourceClaims_payload memoryDriver
      [unallocatedClaim "u-1", reservedClaim "u-2"] NewMemory (reservedClaim "u-2") _
      rfl (by decide) (by simp) rfl
  refine ⟨result, s', hret, ?_⟩
  rw [show (reservedClaim "u-2").UID = "u-2" from rfl] at hlook
  rw [hlook, hpay]
  rfl

end dra


/-! ### The device catalog -/

namespace GoMap

variable {κ ν : Type} [DecidableEq κ]

theorem mem_keys_storeIn (l : List (κ × ν)) (k k₂ : κ) (v : ν) :
    k₂ ∈ (storeIn l k v).map Prod.fst ↔ k₂ = k ∨ k₂ ∈ l.map Prod.fst := by
  induction l with
  | nil => simp [storeIn]
  | cons e rest ih =>
    obtain ⟨k', v'⟩ := e
    by_cases h : k' = k
    · subst h
      simp [storeIn]
    · simp only [storeIn, h, if_false, List.map_cons, List.mem_cons, ih]
      tauto

theorem nodup_keys_storeIn (l : List (κ × ν)) (k : κ) (v : ν)
    (h : (l.map Prod.fst).Nodup) : ((storeIn l k v).map Prod.fst).Nodup := by
  induction l with
  | nil => simp [storeIn]
  | cons e rest ih =>
    obtain ⟨k', v'⟩ := e
    rw [List.map_cons, List.nodup_cons] at h
    by_cases hk : k' = k
    · subst hk
      simp only [storeIn, if_true, List.map_cons, List.nodup_cons]
      exact h
    · simp only [storeIn, hk, if_false, List.map_cons, List.nodup_cons, mem_keys_storeIn]
      refine ⟨?_, ih h.2⟩
      rintro (h' | h')
      · first | exact hk h' | exact h'.elim
      · exact h.1 h'

theorem isSome_lookupIn_iff (l : List (κ × ν)) (k : κ) :
    (lookupIn l k).isSome ↔ k ∈ l.map Prod.fst := by
  induction l with
  | nil => simp [lookupIn]
  | cons e rest ih =>
    obtain ⟨k', v'⟩ := e
    by_cases h : k' = k
    · subst h
      simp [lookupIn]
    · have h' : ¬ k = k' := fun hk => h hk.symm
      simp [lookupIn, h, h', ih]

theorem filterMap_lookupIn_keys (l : List (κ × ν)) (h : (l.map Prod.fst).Nodup) :
    (l.map Prod.fst).filterMap (lookupIn l) = l.map Prod.snd := by
  induction l with
  | nil => rfl
  | cons e rest ih =>
    obtain ⟨k', v'⟩ := e
    rw [List.map_cons, List.nodup_cons] at h
    have hrest : (rest.map Prod.fst).filterMap (lookupIn ((k', v') :: rest))
        = (rest.map Prod.fst).filterMap (lookupIn rest) := by
      apply List.filterMap_congr
      intro k hk
      have hne : ¬ k' = k := by
        rintro rfl
        exact h.1 hk
      simp [lookupIn, hne]
    have hhead : lookupIn ((k', v') :: rest) k' = some v' := by simp [lookupIn]
    rw [List.map_cons, List.map_cons, List.filterMap_cons_some hhead, hrest, ih h.2]

end GoMap

section discovery

variable {ρ : Type}

theorem generateUUIDsLoop_length (lib : RandLib ρ) (pfx : String) (n : Nat) (rand : ρ)
    (uuids : List String) :
    (generateUUIDsLoop lib pfx n rand uuids).length = uuids.length + n := by
  induction n generalizing rand uuids with
  | zero => rfl
  | succ n ih =>
    simp only [generateUUIDsLoop, ih, List.length_append, List.length_singleton]
    omega

theorem generateUUIDs_length (lib : RandLib ρ) (pfx seed : String) (count : Nat) :
    (generateUUIDs lib pfx seed count).length = count := by
  simp [generateUUIDs, generateUUIDsLoop_length]

end discovery

theorem generateDevice_Name (pfx : String) (i : Nat) (uuid : String) (shared consumable : Bool) :
    (generateDevice pfx i uuid shared consumable).Name = pfx ++ toString i := rfl

theorem mem_keys_enumerateLoop (pfx : String) (shared consumable : Bool)
    (uuids : List String) (i : Nat) (alldevices : AllocatableDevices) (name : String) :
    name ∈ (enumerateLoop pfx shared consumable uuids i alldevices).entries.map Prod.fst ↔
      name ∈ alldevices.entries.map Prod.fst ∨
      ∃ j, j < uuids.length ∧ name = pfx ++ toString (i + j) := by
  induction uuids generalizing i alldevices with
  | nil => simp [enumerateLoop]
  | cons uuid rest ih =>
    simp only [enumerateLoop, ih, GoMap.store, GoMap.mem_keys_storeIn, generateDevice_Name,
      List.length_cons]
    constructor
    · rintro ((h | h) | ⟨j, hj, h⟩)
      · exact Or.inr ⟨0, by omega, by simpa using h⟩
      · exact Or.inl h
      · exact Or.inr ⟨j + 1, by omega, by rw [h]; congr 2; omega⟩
    · rintro (h | ⟨j, hj, h⟩)
      · exact Or.inl (Or.inr h)
      · cases j with
        | zero => exact Or.inl (Or.inl (by simpa using h))
        | succ j => exact Or.inr ⟨j, by omega, by rw [h]; congr 2; omega⟩

theorem nodup_keys_enumerateLoop (pfx : String) (shared consumable : Bool)
    (uuids : List String) (i : Nat) (alldevices : AllocatableDevices)
    (h : (alldevices.entries.map Prod.fst).Nodup) :
    ((enumerateLoop pfx shared consumable uuids i alldevices).entries.map Prod.fst).Nodup := by
  induction uuids generalizing i alldevices with
  | nil => exact h
  | cons uuid rest ih =>
    simp only [enumerateLoop]
    apply ih
    exact GoMap.nodup_keys_storeIn _ _ _ h

theorem nodup_keys_enumerate {ρ : Type} (lib : RandLib ρ) (seed : String) (e s c : Nat) :
    ((enumerateAllPossibleDevices lib seed e s c).entries.map Prod.fst).Nodup := by
  unfold enumerateAllPossibleDevices
  apply nodup_keys_enumerateLoop
  apply nodup_keys_enumerateLoop
  apply nodup_keys_enumerateLoop
  simp [GoMap.empty]

theorem rangeDevices_eq (allocatable : AllocatableDevices) (order : List String)
    (devices : List resourceapi.Device) :
    rangeDevices allocatable order devices
      = devices ++ order.filterMap (GoMap.lookupIn allocatable.entries) := by
  induction order generalizing devices with
  | nil => simp [rangeDevices]
  | cons name rest ih =>
    cases hl : GoMap.lookupIn allocatable.entries name with
    | none => simp [rangeDevices, GoMap.lookup, hl, ih]
    | some device => simp [rangeDevices, GoMap.lookup, hl, ih]

theorem devicesOf_GetResources (m : DeviceDiscovery) (poolName : String) (order : List String) :
    (m.GetResources poolName order).devicesOf poolName
      = order.filterMap (GoMap.lookupIn m.allocatable.entries) := by
  simp [DeviceDiscovery.GetResources, DriverResources.devicesOf, GoMap.lookup_store_self,
    rangeDevices_eq]

theorem devicesOf_perm_values (m : DeviceDiscovery) (poolName : String) (order : List String)
    (hkeys : (m.allocatable.entries.map Prod.fst).Nodup)
    (horder : IsRangeOrder m.allocatable order) :
    ((m.GetResources poolName order).devicesOf poolName).Perm m.allocatable.values := by
  rw [devicesOf_GetResources, GoMap.values, ← GoMap.filterMap_lookupIn_keys _ hkeys]
  exact List.Perm.filterMap _ horder

theorem IsAllocatable_iff {ρ : Type} (lib : RandLib ρ) (seed : String) (e s c : Nat)
    (name : String) :
    (NewDeviceDiscovery lib seed ⟨e, s, c⟩).IsAllocatable name = true ↔
      (∃ i, i < e ∧ name = "gpu-" ++ toString i) ∨
      (∃ i, i < s ∧ name = "nic-" ++ toString i) ∨
      (∃ i, i < s ∧ name = "qos-nic-" ++ toString i) := by
  simp only [DeviceDiscovery.IsAllocatable, NewDeviceDiscovery, GoMap.lookup,
    GoMap.isSome_lookupIn_iff, enumerateAllPossibleDevices, mem_keys_enumerateLoop,
    generateUUIDs_length, GoMap.empty, List.map_nil, List.not_mem_nil, false_or, Nat.zero_add,
    gpuPrefix, nicPrefix, qosNicPrefix, or_assoc]

/-- C9, what the code does: the count of shared devices with divisible
capacity is not read; the `qos-nic-` devices are generated with the count of
shared devices without divisible capacity. The allocatable names are
`gpu-0 .. gpu-(e-1)`, `nic-0 .. nic-(s-1)` and `qos-nic-0 .. qos-nic-(s-1)`;
for the counts (2, 1, 2) the catalog has 4 devices, not 5, and `qos-nic-1` is
not allocatable. -/
theorem enumerate_uses_shared_count_for_qos {ρ : Type} (lib : RandLib ρ) (seed : String) :
    (∀ e s c c₂, NewDeviceDiscovery lib seed ⟨e, s, c⟩ = NewDeviceDiscovery lib seed ⟨e, s, c₂⟩) ∧
    (∀ e s c name, (NewDeviceDiscovery lib seed ⟨e, s, c⟩).IsAllocatable name = true ↔
      (∃ i, i < e ∧ name = "gpu-" ++ toString i) ∨
      (∃ i, i < s ∧ name = "nic-" ++ toString i) ∨
      (∃ i, i < s ∧ name = "qos-nic-" ++ toString i)) ∧
    (NewDeviceDiscovery lib seed ⟨2, 1, 2⟩).allocatable.keys
      = ["gpu-0", "gpu-1", "nic-0", "qos-nic-0"] ∧
    (NewDeviceDiscovery lib seed ⟨2, 1, 2⟩).allocatable.len = 4 ∧
    (NewDeviceDiscovery lib seed ⟨2, 1, 2⟩).IsAllocatable "qos-nic-1" = false := by
  refine ⟨fun _ _ _ _ => rfl, fun e s c name => IsAllocatable_iff lib seed e s c name, ?_⟩
  simp +decide [NewDeviceDiscovery, enumerateAllPossibleDevices, generateUUIDs,
    generateUUIDsLoop, enumerateLoop, generateDevice, DeviceDiscovery.IsAllocatable,
    GoMap.store, GoMap.storeIn, GoMap.lookup, GoMap.lookupIn, GoMap.empty, gpuPrefix,
    nicPrefix, qosNicPrefix, GoMap.len, GoMap.keys]

/-- C10, the claim fails as stated: for the catalog built from the seed
`node-1` with two exclusive devices, two visits of the catalog map, each of
every key once, give two different published device lists for the same pool
name. -/
theorem GetResources_order_counterexample :
    IsRangeOrder (NewDeviceDiscovery spyRand "node-1" ⟨2, 0, 0⟩).allocatable ["gpu-0", "gpu-1"] ∧
    IsRangeOrder (NewDeviceDiscovery spyRand "node-1" ⟨2, 0, 0⟩).allocatable ["gpu-1", "gpu-0"] ∧
    (NewDeviceDiscovery spyRand "node-1" ⟨2, 0, 0⟩).GetResources "pool" ["gpu-0", "gpu-1"]
      ≠ (NewDeviceDiscovery spyRand "node-1" ⟨2, 0, 0⟩).GetResources "pool" ["gpu-1", "gpu-0"] := by
  refine ⟨by decide, by decide, by decide⟩

/-- C10, amended: building the catalog twice with the same seed and the same
counts yields identical catalogs (the same names, and for each name the same
device: identifier, attributes and capacities), and for the same pool name
`GetResources` publishes the same devices, each device of the catalog once;
the order of the published list is the order in which the catalog map is
visited, so the two lists are equal up to order, and equal when both visits
use the same order. -/
theorem catalog_deterministic_up_to_order {ρ : Type} (lib : RandLib ρ)
    (seed₁ seed₂ : String) (config₁ config₂ : Config) (poolName : String)
    (order₁ order₂ : List String)
    (hseed : seed₁ = seed₂) (hconfig : config₁ = config₂)
    (horder₁ : IsRangeOrder (NewDeviceDiscovery lib seed₁ config₁).allocatable order₁)
    (horder₂ : IsRangeOrder (NewDeviceDiscovery lib seed₂ config₂).allocatable order₂) :
    NewDeviceDiscovery lib seed₁ config₁ = NewDeviceDiscovery lib seed₂ config₂ ∧
    (∀ name, (NewDeviceDiscovery lib seed₁ config₁).IsAllocatable name
        = (NewDeviceDiscovery lib seed₂ config₂).IsAllocatable name ∧
      (NewDeviceDiscovery lib seed₁ config₁).allocatable.lookup name
        = (NewDeviceDiscovery lib seed₂ config₂).allocatable.lookup name) ∧
    (((NewDeviceDiscovery lib seed₁ config₁).GetResources poolName order₁).devicesOf poolName).Perm
      (((NewDeviceDiscovery lib seed₂ config₂).GetResources poolName order₂).devicesOf poolName) ∧
    (((NewDeviceDiscovery lib seed₁ config₁).GetResources poolName order₁).devicesOf poolName).Perm
      (NewDeviceDiscovery lib seed₁ config₁).allocatable.values ∧
    (order₁ = order₂ →
      (NewDeviceDiscovery lib seed₁ config₁).GetResources poolName order₁
        = (NewDeviceDiscovery lib seed₂ config₂).GetResources poolName order₂) := by
  subst hseed hconfig
  have hkeys : ((NewDeviceDiscovery lib seed₁ config₁).allocatable.entries.map Prod.fst).Nodup :=
    nodup_keys_enumerate lib seed₁ config₁.NumDevices config₁.NumSharedDevices
      config₁.NumSharedDevicesWithConsumable
  have h₁ := devicesOf_perm_values _ poolName order₁ hkeys horder₁
  have h₂ := devicesOf_perm_values _ poolName order₂ hkeys horder₂
  refine ⟨rfl, fun _ => ⟨rfl, rfl⟩, h₁.trans h₂.symm, h₁, ?_⟩
  intro h
  rw [h]

/-- C10 amended, at a concrete input: the catalog of the seed `node-1` with two
exclusive devices, visited in the two possible orders. -/
theorem catalog_deterministic_up_to_order_witness :
    IsRangeOrder (NewDeviceDiscovery spyRand "node-1" ⟨2, 0, 0⟩).allocatable ["gpu-0", "gpu-1"] ∧
    IsRangeOrder (NewDeviceDiscovery spyRand "node-1" ⟨2, 0, 0⟩).allocatable ["gpu-1", "gpu-0"] ∧
    (((NewDeviceDiscovery spyRand "node-1" ⟨2, 0, 0⟩).GetResources "pool"
        ["gpu-0", "gpu-1"]).devicesOf "pool").Perm
      (((NewDeviceDiscovery spyRand "node-1" ⟨2, 0, 0⟩).GetResources "pool"
        ["gpu-1", "gpu-0"]).devicesOf "pool") :=
  ⟨by decide, by decide,
    (catalog_deterministic_up_to_order spyRand "node-1" "node-1" ⟨2, 0, 0⟩ ⟨2, 0, 0⟩ "pool"
      ["gpu-0", "gpu-1"] ["gpu-1", "gpu-0"] rfl rfl (by decide) (by decide)).2.2.1⟩


/-! ### The status reporter -/

theorem ipsLoop_eq (ipNetString : IPNet → String) (ips : List cni100.IPConfig)
    (networkData : NetworkDeviceData) :
    ipsLoop ipNetString ips networkData
      = { networkData with
          IPs := networkData.IPs ++ ips.map (fun ip => ipNetString ip.Address) } := by
  induction ips generalizing networkData with
  | nil => simp [ipsLoop]
  | cons ip rest ih => simp [ipsLoop, ih]

theorem interfacesLoop_IPs (interfaces : List cni100.Interface)
    (networkData : NetworkDeviceData) :
    (interfacesLoop interfaces networkData).IPs = networkData.IPs := by
  induction interfaces generalizing networkData with
  | nil => rfl
  | cons ifs rest ih =>
    unfold interfacesLoop
    split
    · rw [ih]
    · rw [ih]

theorem interfacesLoop_filter (interfaces : List cni100.Interface)
    (networkData : NetworkDeviceData) :
    interfacesLoop interfaces networkData
      = interfacesLoop (interfaces.filter (fun ifs => decide (ifs.Sandbox ≠ ""))) networkData := by
  induction interfaces generalizing networkData with
  | nil => rfl
  | cons ifs rest ih =>
    by_cases h : ifs.Sandbox ≠ ""
    · rw [List.filter_cons_of_pos (by simpa using h)]
      simp only [interfacesLoop]
      rw [if_pos h, if_pos h]
      exact ih _
    · rw [List.filter_cons_of_neg (by simpa using h)]
      simp only [interfacesLoop]
      rw [if_neg h]
      exact ih _

theorem interfacesLoop_of_sandboxed (interfaces : List cni100.Interface)
    (networkData : NetworkDeviceData)
    (hall : ∀ ifs ∈ interfaces, ifs.Sandbox ≠ "") :
    interfacesLoop interfaces networkData
      = match interfaces.getLast? with
        | some ifs =>
          { networkData with InterfaceName := ifs.Name, HardwareAddress := ifs.Mac }
        | none => networkData := by
  induction interfaces generalizing networkData with
  | nil => rfl
  | cons ifs rest ih =>
    have hifs : ifs.Sandbox ≠ "" := hall ifs (List.mem_cons_self _ _)
    have hrest : ∀ x ∈ rest, x.Sandbox ≠ "" := fun x hx => hall x (List.mem_cons_of_mem _ hx)
    simp only [interfacesLoop]
    rw [if_pos hifs, ih _ hrest, List.getLast?_cons]
    cases rest.getLast? <;> rfl

theorem interfacesLoop_last (interfaces : List cni100.Interface)
    (networkData : NetworkDeviceData) :
    interfacesLoop interfaces networkData
      = match (interfaces.filter (fun ifs => decide (ifs.Sandbox ≠ ""))).getLast? with
        | some ifs =>
          { networkData with InterfaceName := ifs.Name, HardwareAddress := ifs.Mac }
        | none => networkData := by
  rw [interfacesLoop_filter]
  apply interfacesLoop_of_sandboxed
  intro ifs hifs
  simpa using (List.mem_filter.mp hifs).2

theorem cniResultToNetworkData_eq (ipNetString : IPNet → String) (cniResult : cni100.Result) :
    cniResultToNetworkData ipNetString cniResult
      = match (sandboxInterfaces cniResult).getLast? with
        | some ifs =>
          { InterfaceName := ifs.Name
            IPs := cniResult.IPs.map (fun ip => ipNetString ip.Address)
            HardwareAddress := ifs.Mac }
        | none =>
          { InterfaceName := ""
            IPs := cniResult.IPs.map (fun ip => ipNetString ip.Address)
            HardwareAddress := "" } := by
  unfold cniResultToNetworkData sandboxInterfaces
  rw [interfacesLoop_last, ipsLoop_eq]
  cases (cniResult.Interfaces.filter (fun ifs => decide (ifs.Sandbox ≠ ""))).getLast? <;> simp

/-- C11: `cniResultToNetworkData` returns network data whose IP list is the
list of the result's IP addresses, same length and same order. The interface
name and hardware address are those of the sandbox-scoped interface when the
result has exactly one (of the last one when it has several, empty when it has
none); interfaces without a sandbox have no influence: dropping them from the
result gives the same network data. In particular, for two IP addresses and
exactly one sandbox-scoped interface the IP list has length 2 and the name and
hardware address are that interface's name and MAC. -/
theorem cniResultToNetworkData_normalizes (ipNetString : IPNet → String)
    (cniResult : cni100.Result) :
    (cniResultToNetworkData ipNetString cniResult).IPs
      = cniResult.IPs.map (fun ip => ipNetString ip.Address) ∧
    (cniResultToNetworkData ipNetString cniResult).IPs.length = cniResult.IPs.length ∧
    (∀ ifs, sandboxInterfaces cniResult = [ifs] →
      (cniResultToNetworkData ipNetString cniResult).InterfaceName = ifs.Name ∧
      (cniResultToNetworkData ipNetString cniResult).HardwareAddress = ifs.Mac) ∧
    (∀ ifs, (sandboxInterfaces cniResult).getLast? = some ifs →
      (cniResultToNetworkData ipNetString cniResult).InterfaceName = ifs.Name ∧
      (cniResultToNetworkData ipNetString cniResult).HardwareAddress = ifs.Mac) ∧
    (sandboxInterfaces cniResult = [] →
      (cniResultToNetworkData ipNetString cniResult).InterfaceName = "" ∧
      (cniResultToNetworkData ipNetString cniResult).HardwareAddress = "") ∧
    cniResultToNetworkData ipNetString cniResult
      = cniResultToNetworkData ipNetString
          { cniResult with Interfaces := sandboxInterfaces cniResult } ∧
    (cniResult.IPs.length = 2 → ∀ ifs, sandboxInterfaces cniResult = [ifs] →
      (cniResultToNetworkData ipNetString cniResult).IPs.length = 2 ∧
      (cniResultToNetworkData ipNetString cniResult).InterfaceName = ifs.Name ∧
      (cniResultToNetworkData ipNetString cniResult).HardwareAddress = ifs.Mac) := by
  have heq := cniResultToNetworkData_eq ipNetString cniResult
  have hips : (cniResultToNetworkData ipNetString cniResult).IPs
      = cniResult.IPs.map (fun ip => ipNetString ip.Address) := by
    rw [heq]; cases (sandboxInterfaces cniResult).getLast? <;> rfl
  have hlast : ∀ ifs, (sandboxInterfaces cniResult).getLast? = some ifs →
      (cniResultToNetworkData ipNetString cniResult).InterfaceName = ifs.Name ∧
      (cniResultToNetworkData ipNetString cniResult).HardwareAddress = ifs.Mac := by
    intro ifs h
    rw [heq, h]
    exact ⟨rfl, rfl⟩
  have hone : ∀ ifs, sandboxInterfaces cniResult = [ifs] →
      (cniResultToNetworkData ipNetString cniResult).InterfaceName = ifs.Name ∧
      (cniResultToNetworkData ipNetString cniResult).HardwareAddress = ifs.Mac := by
    intro ifs h
    exact hlast ifs (by rw [h]; rfl)
  refine ⟨hips, by rw [hips, List.length_map], hone, hlast, ?_, ?_, ?_⟩
  · intro h
    rw [heq, h]
    exact ⟨rfl, rfl⟩
  · unfold cniResultToNetworkData sandboxInterfaces
    exact interfacesLoop_filter _ _
  · intro h2 ifs h
    exact ⟨by rw [hips, List.length_map, h2], hone ifs h⟩

/-- C11 at a concrete input: two IP addresses, the sandbox-scoped interface
`eth0` between two host-side interfaces. -/
theorem cniResultToNetworkData_normalizes_witness :
    cniResultToNetworkData spyStatusLib.ipNetString
      { CNIVersion := "1.0.0"
        Interfaces := [⟨"veth0", "aa:aa", 1500, ""⟩, ⟨"eth0", "bb:bb", 1500, "/netns"⟩,
          ⟨"br0", "cc:cc", 1500, ""⟩]
        IPs := [⟨some 1, ⟨[10, 0, 0, 5], [255, 255, 255, 0]⟩, []⟩,
                ⟨some 1, ⟨[10, 0, 0, 6], [255, 255, 255, 0]⟩, []⟩] }
      = { InterfaceName := "eth0", IPs := ["10.0.0.5", "10.0.0.6"], HardwareAddress := "bb:bb" } := by
  have h := (cniResultToNetworkData_normalizes spyStatusLib.ipNetString
      { CNIVersion := "1.0.0"
        Interfaces := [⟨"veth0", "aa:aa", 1500, ""⟩, ⟨"eth0", "bb:bb", 1500, "/netns"⟩,
          ⟨"br0", "cc:cc", 1500, ""⟩]
        IPs := [⟨some 1, ⟨[10, 0, 0, 5], [255, 255, 255, 0]⟩, []⟩,
                ⟨some 1, ⟨[10, 0, 0, 6], [255, 255, 255, 0]⟩, []⟩] }).2.2.2.2.2.1
  rw [h]
  decide

section status

variable {σ R : Type}

theorem appendDeviceStatus_Devices (claim : ResourceClaim) (entry : AllocatedDeviceStatus) :
    (appendDeviceStatus claim entry).Status.Devices = claim.Status.Devices ++ [entry] := rfl

theorem CNIStatusHandler.UpdateStatus_of_marshal_error (cnish : CNIStatusHandler σ)
    (lib : StatusLib R) (claim : ResourceClaim) (result : R) (ext : σ) (err : String)
    (hmarshal : lib.jsonMarshal result = .error err) :
    cnish.UpdateStatus lib claim result ext = some (some (.marshal result err), claim, ext) := by
  simp [CNIStatusHandler.UpdateStatus, hmarshal]

theorem CNIStatusHandler.UpdateStatus_of_newResult_error (cnish : CNIStatusHandler σ)
    (lib : StatusLib R) (claim : ResourceClaim) (result : R) (ext : σ)
    (resultBytes : Bytes) (err : String)
    (hmarshal : lib.jsonMarshal result = .ok resultBytes)
    (hnorm : lib.NewResultFromResult result = .error err) :
    cnish.UpdateStatus lib claim result ext = some (some (.newResult result err), claim, ext) := by
  simp [CNIStatusHandler.UpdateStatus, hmarshal, hnorm]

theorem CNIStatusHandler.UpdateStatus_of_write (cnish : CNIStatusHandler σ)
    (lib : StatusLib R) (claim : ResourceClaim) (result : R) (ext ext₁ : σ)
    (allocation : AllocationResult) (result₀ : DeviceRequestAllocationResult)
    (rest : List DeviceRequestAllocationResult)
    (resultBytes : Bytes) (cniResult : cni100.Result) (werr : Option String)
    (halloc : claim.Status.Allocation = some allocation)
    (hresults : allocation.Devices.Results = result₀ :: rest)
    (hmarshal : lib.jsonMarshal result = .ok resultBytes)
    (hnorm : lib.NewResultFromResult result = .ok cniResult)
    (hwrite : cnish.ClientSet.UpdateStatus claim.Namespace
        (appendDeviceStatus claim (deviceStatusEntry result₀ resultBytes
          (cniResultToNetworkData lib.ipNetString cniResult))) ext = (werr, ext₁)) :
    cnish.UpdateStatus lib claim result ext
      = some (werr.map (StatusError.updateStatus result),
          appendDeviceStatus claim (deviceStatusEntry result₀ resultBytes
            (cniResultToNetworkData lib.ipNetString cniResult)), ext₁) := by
  cases werr with
  | none => simp [CNIStatusHandler.UpdateStatus, hmarshal, hnorm, halloc, hresults, hwrite]
  | some e => simp [CNIStatusHandler.UpdateStatus, hmarshal, hnorm, halloc, hresults, hwrite]

end status

/-! ### The sandbox hook -/

theorem getNetworkNamespaceLoop_of_no_network (namespaces : List LinuxNamespace)
    (h : ∀ ns ∈ namespaces, ns.Type_ ≠ "network") :
    getNetworkNamespaceLoop namespaces = "" := by
  induction namespaces with
  | nil => rfl
  | cons ns rest ih =>
    have hns : ns.Type_ ≠ "network" := h ns (List.mem_cons_self _ _)
    simp only [getNetworkNamespaceLoop]
    rw [if_neg hns]
    exact ih (fun x hx => h x (List.mem_cons_of_mem _ hx))

theorem getNetworkNamespace_of_no_network (pod : PodSandbox) (h : NoNetworkNamespace pod) :
    getNetworkNamespace pod = "" :=
  getNetworkNamespaceLoop_of_no_network _ h

section claims_status

variable {σ C R : Type}

/-- C12: for a record with exactly one allocated device result and an attach
result for which serialization, normalization and the cluster-API write all
succeed, `UpdateStatus` returns no error and appends exactly one device-status
entry to the record: the entries present before are kept, unchanged and in
order, and the new last entry has the driver, pool, device and share marker of
the device result, the serialized result as raw data and the normalized
network data; the name, namespace and UID of the record, its allocation and
its reservations are unchanged; the record written through the cluster API is
the record with the new entry. -/
theorem UpdateStatus_appends_one_entry (cnish : CNIStatusHandler σ) (lib : StatusLib R)
    (claim : ResourceClaim) (result : R) (ext ext₁ : σ)
    (allocation : AllocationResult) (result₀ : DeviceRequestAllocationResult)
    (resultBytes : Bytes) (cniResult : cni100.Result)
    (halloc : claim.Status.Allocation = some allocation)
    (hone : allocation.Devices.Results = [result₀])
    (hmarshal : lib.jsonMarshal result = .ok resultBytes)
    (hnorm : lib.NewResultFromResult result = .ok cniResult)
    (hwrite : cnish.ClientSet.UpdateStatus claim.Namespace
        (appendDeviceStatus claim (deviceStatusEntry result₀ resultBytes
          (cniResultToNetworkData lib.ipNetString cniResult))) ext = (none, ext₁)) :
    ∃ claim₁ entry, cnish.UpdateStatus lib claim result ext = some (none, claim₁, ext₁) ∧
      cnish.ClientSet.UpdateStatus claim.Namespace claim₁ ext = (none, ext₁) ∧
      claim₁.Status.Devices = claim.Status.Devices ++ [entry] ∧
      claim₁.Status.Devices.length = claim.Status.Devices.length + 1 ∧
      (∀ i : Nat, i < claim.Status.Devices.length →
        claim₁.Status.Devices[i]? = claim.Status.Devices[i]?) ∧
      claim₁.Status.Devices.getLast? = some entry ∧
      entry.Driver = result₀.Driver ∧ entry.Pool = result₀.Pool ∧
      entry.Device = result₀.Device ∧ entry.ShareUID = result₀.ShareUID ∧
      entry.Data = some resultBytes ∧
      entry.NetworkData = some (cniResultToNetworkData lib.ipNetString cniResult) ∧
      claim₁.Name = claim.Name ∧ claim₁.Namespace = claim.Namespace ∧
      claim₁.UID = claim.UID ∧ claim₁.Status.Allocation = claim.Status.Allocation ∧
      claim₁.Status.ReservedFor = claim.Status.ReservedFor := by
  have hcall := CNIStatusHandler.UpdateStatus_of_write cnish lib claim result ext ext₁
    allocation result₀ [] resultBytes cniResult none halloc hone hmarshal hnorm hwrite
  refine ⟨_, deviceStatusEntry result₀ resultBytes
    (cniResultToNetworkData lib.ipNetString cniResult), hcall, hwrite, rfl, ?_, ?_, ?_,
    rfl, rfl, rfl, rfl, rfl, rfl, rfl, rfl, rfl, rfl, rfl⟩
  · simp [appendDeviceStatus_Devices]
  · intro i hi
    rw [appendDeviceStatus_Devices, List.getElem?_append_left hi]
  · simp [appendDeviceStatus_Devices]

/-- C12 at a concrete input: a record with one device result and no status
entry, an attach result of two addresses, a cluster that accepts the write. -/
theorem UpdateStatus_appends_one_entry_witness :
    ∃ claim₁ entry,
      spyStatusHandler.UpdateStatus spyStatusLib (spyClaim "u-1" spyDriverName [1])
        [⟨[10, 0, 0, 5], [255, 255, 255, 0]⟩, ⟨[10, 0, 0, 6], [255, 255, 255, 0]⟩] []
        = some (none, claim₁, [claim₁]) ∧
      claim₁.Status.Devices = [entry] ∧
      entry.Driver = spyDriverName ∧ entry.Pool = "pool" ∧ entry.Device = "dev" ∧
      entry.Data = some [1, 1] ∧
      entry.NetworkData = some ⟨"eth0", ["10.0.0.5", "10.0.0.6"], "bb:bb"⟩ := by
  obtain ⟨claim₁, entry, hcall, _, hdev, _, _, _, h₁, h₂, h₃, _, h₄, h₅, _⟩ :=
    UpdateStatus_appends_one_entry spyStatusHandler spyStatusLib
      (spyClaim "u-1" spyDriverName [1])
      [⟨[10, 0, 0, 5], [255, 255, 255, 0]⟩, ⟨[10, 0, 0, 6], [255, 255, 255, 0]⟩] []
      [appendDeviceStatus (spyClaim "u-1" spyDriverName [1])
        (deviceStatusEntry ⟨"req", spyDriverName, "pool", "dev", none⟩ [1, 1]
          ⟨"eth0", ["10.0.0.5", "10.0.0.6"], "bb:bb"⟩)]
      ⟨⟨[⟨"req", spyDriverName, "pool", "dev", none⟩],
        [⟨"FromClaim", ["req"], some ⟨spyDriverName, [1]⟩⟩]⟩⟩
      ⟨"req", spyDriverName, "pool", "dev", none⟩ [1, 1]
      { CNIVersion := "1.0.0"
        Interfaces := [⟨"veth0", "aa:aa", 1500, ""⟩, ⟨"eth0", "bb:bb", 1500, "/netns"⟩,
          ⟨"br0", "cc:cc", 1500, ""⟩]
        IPs := [⟨some 1, ⟨[10, 0, 0, 5], [255, 255, 255, 0]⟩, []⟩,
                ⟨some 1, ⟨[10, 0, 0, 6], [255, 255, 255, 0]⟩, []⟩] }
      rfl rfl rfl rfl (by decide)
  refine ⟨claim₁, entry, ?_, hdev, h₁, h₂, h₃, h₄, ?_⟩
  · rw [hcall]
    have hc : some ((none : Option (StatusError (List IPNet))), claim₁,
        [appendDeviceStatus (spyClaim "u-1" spyDriverName [1])
          (deviceStatusEntry ⟨"req", spyDriverName, "pool", "dev", none⟩ [1, 1]
            ⟨"eth0", ["10.0.0.5", "10.0.0.6"], "bb:bb"⟩)])
        = spyStatusHandler.UpdateStatus spyStatusLib (spyClaim "u-1" spyDriverName [1])
            [⟨[10, 0, 0, 5], [255, 255, 255, 0]⟩, ⟨[10, 0, 0, 6], [255, 255, 255, 0]⟩] [] :=
      hcall.symm
    have hv : spyStatusHandler.UpdateStatus spyStatusLib (spyClaim "u-1" spyDriverName [1])
        [⟨[10, 0, 0, 5], [255, 255, 255, 0]⟩, ⟨[10, 0, 0, 6], [255, 255, 255, 0]⟩] []
        = some (none, appendDeviceStatus (spyClaim "u-1" spyDriverName [1])
            (deviceStatusEntry ⟨"req", spyDriverName, "pool", "dev", none⟩ [1, 1]
              ⟨"eth0", ["10.0.0.5", "10.0.0.6"], "bb:bb"⟩),
            [appendDeviceStatus (spyClaim "u-1" spyDriverName [1])
              (deviceStatusEntry ⟨"req", spyDriverName, "pool", "dev", none⟩ [1, 1]
                ⟨"eth0", ["10.0.0.5", "10.0.0.6"], "bb:bb"⟩)]) := by decide
    rw [hv] at hc
    have := (Prod.mk.inj (Prod.mk.inj (Option.some.inj hc)).2).1
    rw [this]
  · rw [h₅]
    decide

/-- C13: for a sandbox that declares no namespace of type `network`,
`RunPodSandbox` returns the error whose message names the pod and its
namespace, and leaves the world, log included, as it was: no plugin
invocation and no status report. The outcome is the same for every plugin,
whatever its runtime and the records stored for the pod: `AttachNetworks` is
not consulted. -/
theorem RunPodSandbox_without_network_namespace (p : Plugin σ C R) (pod : PodSandbox)
    (w : World σ C R) (hnone : NoNetworkNamespace pod) :
    p.RunPodSandbox pod w
      = (some (.networkNamespace
          ("error getting network namespace for pod '" ++ pod.Name ++ "' in namespace '"
            ++ pod.Namespace ++ "'")), w) ∧
    (p.RunPodSandbox pod w).2.log = w.log ∧
    (∀ p₂ : Plugin σ C R, p₂.RunPodSandbox pod w = p.RunPodSandbox pod w) := by
  have hns := getNetworkNamespace_of_no_network pod hnone
  have hrun : ∀ q : Plugin σ C R, q.RunPodSandbox pod w
      = (some (.networkNamespace
          ("error getting network namespace for pod '" ++ pod.Name ++ "' in namespace '"
            ++ pod.Namespace ++ "'")), w) := by
    intro q
    unfold Plugin.RunPodSandbox
    rw [if_pos hns]
  refine ⟨hrun p, by rw [hrun p], ?_⟩
  intro p₂
  rw [hrun p, hrun p₂]

/-- C13 at a concrete input: a sandbox with an IPC and a PID namespace only,
while an actionable record is stored for its pod. -/
theorem RunPodSandbox_without_network_namespace_witness :
    NoNetworkNamespace sandboxWithoutNetwork ∧
    (⟨spyRuntime (NewMemory.Add "pod-a" (spyClaim "u-1" spyDriverName [1]))⟩ :
        Plugin Nat Bytes String).RunPodSandbox sandboxWithoutNetwork spyWorld
      = (some (.networkNamespace
          "error getting network namespace for pod 'web-0' in namespace 'default'"),
        spyWorld) := by
  have hnone : NoNetworkNamespace sandboxWithoutNetwork := by decide
  refine ⟨hnone, ?_⟩
  rw [(RunPodSandbox_without_network_namespace _ sandboxWithoutNetwork spyWorld hnone).1]
  decide

/-- C14: `UpdateStatus` is not atomic on a persistence error. For a record
with one device result: when the result serializes and normalizes and the
cluster-API write fails, the call returns an error and the record after the
call has the new device-status entry appended, one entry more than before (the
record handed to the write already carries it); when the serialization fails,
or the normalization fails, the call returns an error and the record and the
cluster state are as before the call. -/
theorem UpdateStatus_not_atomic_on_write_error (cnish : CNIStatusHandler σ)
    (lib : StatusLib R) (claim : ResourceClaim) (result : R) (ext : σ)
    (allocation : AllocationResult) (result₀ : DeviceRequestAllocationResult)
    (halloc : claim.Status.Allocation = some allocation)
    (hone : allocation.Devices.Results = [result₀]) :
    (∀ resultBytes cniResult err ext₁,
      lib.jsonMarshal result = .ok resultBytes →
      lib.NewResultFromResult result = .ok cniResult →
      cnish.ClientSet.UpdateStatus claim.Namespace
        (appendDeviceStatus claim (deviceStatusEntry result₀ resultBytes
          (cniResultToNetworkData lib.ipNetString cniResult))) ext = (some err, ext₁) →
      ∃ claim₁ entry,
        cnish.UpdateStatus lib claim result ext
          = some (some (.updateStatus result err), claim₁, ext₁) ∧
        cnish.ClientSet.UpdateStatus claim.Namespace claim₁ ext = (some err, ext₁) ∧
        claim₁.Status.Devices = claim.Status.Devices ++ [entry] ∧
        claim₁.Status.Devices.length = claim.Status.Devices.length + 1 ∧
        claim₁ ≠ claim) ∧
    (∀ err, lib.jsonMarshal result = .error err →
      cnish.UpdateStatus lib claim result ext
        = some (some (.marshal result err), claim, ext)) ∧
    (∀ resultBytes err,
      lib.jsonMarshal result = .ok resultBytes →
      lib.NewResultFromResult result = .error err →
      cnish.UpdateStatus lib claim result ext
        = some (some (.newResult result err), claim, ext)) := by
  refine ⟨?_, ?_, ?_⟩
  · intro resultBytes cniResult err ext₁ hmarshal hnorm hwrite
    have hcall := CNIStatusHandler.UpdateStatus_of_write cnish lib claim result ext ext₁
      allocation result₀ [] resultBytes cniResult (some err) halloc hone hmarshal hnorm hwrite
    refine ⟨_, deviceStatusEntry result₀ resultBytes
      (cniResultToNetworkData lib.ipNetString cniResult), hcall, hwrite, rfl, ?_, ?_⟩
    · simp [appendDeviceStatus_Devices]
    · intro heq
      have hlen := congrArg (fun c : ResourceClaim => c.Status.Devices.length) heq
      simp [appendDeviceStatus_Devices] at hlen
  · intro err hmarshal
    exact CNIStatusHandler.UpdateStatus_of_marshal_error cnish lib claim result ext err hmarshal
  · intro resultBytes err hmarshal hnorm
    exact CNIStatusHandler.UpdateStatus_of_newResult_error cnish lib claim result ext
      resultBytes err hmarshal hnorm

/-- C14 at a concrete input: a record in the namespace for which the write
fails gains one status entry although the call returns the write error, and
keeps its status list when the result does not serialize or does not
normalize. -/
theorem UpdateStatus_not_atomic_on_write_error_witness :
    (∃ claim₁ entry,
      spyStatusHandler.UpdateStatus spyStatusLib brokenClaim
        [⟨[10, 0, 0, 5], [255, 255, 255, 0]⟩] []
        = some (some (.updateStatus [⟨[10, 0, 0, 5], [255, 255, 255, 0]⟩] "conflict"),
            claim₁, []) ∧
      claim₁.Status.Devices = brokenClaim.Status.Devices ++ [entry] ∧
      claim₁.Status.Devices.length = 1) ∧
    spyStatusHandler.UpdateStatus spyStatusLib brokenClaim [] []
      = some (some (.marshal [] "unsupported value"), brokenClaim, []) ∧
    spyStatusHandler.UpdateStatus spyStatusLib brokenClaim
        [⟨[1], []⟩, ⟨[2], []⟩, ⟨[3], []⟩] []
      = some (some (.newResult [⟨[1], []⟩, ⟨[2], []⟩, ⟨[3], []⟩] "unsupported version"),
          brokenClaim, []) := by
  refine ⟨?_, ?_, ?_⟩
  · obtain ⟨claim₁, entry, hcall, _, hdev, hlen, _⟩ :=
      (UpdateStatus_not_atomic_on_write_error spyStatusHandler spyStatusLib brokenClaim
        [⟨[10, 0, 0, 5], [255, 255, 255, 0]⟩] []
        ⟨⟨[⟨"req", spyDriverName, "pool", "dev", none⟩],
          [⟨"FromClaim", ["req"], some ⟨spyDriverName, [1]⟩⟩]⟩⟩
        ⟨"req", spyDriverName, "pool", "dev", none⟩ rfl rfl).1
        [1]
        { CNIVersion := "1.0.0"
          Interfaces := [⟨"veth0", "aa:aa", 1500, ""⟩, ⟨"eth0", "bb:bb", 1500, "/netns"⟩,
            ⟨"br0", "cc:cc", 1500, ""⟩]
          IPs := [⟨some 1, ⟨[10, 0, 0, 5], [255, 255, 255, 0]⟩, []⟩] }
        "conflict" [] rfl rfl (by decide)
    exact ⟨claim₁, entry, hcall, hdev, by rw [hlen]; rfl⟩
  · decide
  · decide

end claims_status

end CniDra
